import Mathlib

/-
  Verification development for the ocentra-games Solana contract
  (src/Rust/SolanaContract).  The Rust sources are shallowly embedded:
  u8/u32/u64 values become Nat (with explicit `% 256` where the release-profile
  wrapping arithmetic of the on-chain build matters), i64 timestamps become Int,
  Pubkey becomes Nat, fixed byte arrays become lists of Nat, and every fallible
  handler returns `Except GameError _`.  A handler that returns `.error` aborts
  the whole transaction in the host runtime, so the persisted state is the
  original account state; this rollback is modelled explicitly by the
  `*_persist` wrappers.
-/

namespace OG

/-- Error codes, from src/error.rs (GameError). -/
inductive GameError where
  | matchFull
  | invalidPhase
  | notPlayerTurn
  | playerNotInMatch
  | invalidAction
  | invalidPayload
  | unauthorized
  | matchNotFound
  | moveValidationFailed
  | matchAlreadyEnded
  | matchNotReady
  | invalidMoveIndex
  | invalidTimestamp
  | insufficientFunds
  | insufficientPlayers
  | signerAlreadyExists
  | signerRegistryFull
  | signerNotFound
  | invalidBatchId
  | disputeNotFound
  | disputeAlreadyResolved
  | insufficientGPForDispute
  | gpDepositAlreadyProcessed
  | invalidNonce
  | cardHashMismatch
  | overflow
  deriving DecidableEq, Repr

/-- GameType enum, from src/state/game_config.rs. -/
inductive GameType where
  | claim
  | threeCardBrag
  | poker
  | bridge
  | rummy
  | scrabble
  | wordSearch
  | crosswords
  deriving DecidableEq, Repr

/-- Per-game player bounds, from src/state/game_config.rs. -/
structure GameConfig where
  min_players : Nat
  max_players : Nat
  deriving DecidableEq, Repr

/-- GameType::get_config, from src/state/game_config.rs. -/
def GameType.get_config : GameType → GameConfig
  | .claim => ⟨2, 4⟩
  | .threeCardBrag => ⟨2, 6⟩
  | .poker => ⟨2, 10⟩
  | .bridge => ⟨4, 4⟩
  | .rummy => ⟨2, 6⟩
  | .scrabble => ⟨2, 4⟩
  | .wordSearch => ⟨1, 10⟩
  | .crosswords => ⟨1, 10⟩

/-- Match::get_game_type, from src/state/match_state.rs (u8 code → enum,
default fallback Claim). -/
def get_game_type (code : Nat) : GameType :=
  match code with
  | 0 => .claim
  | 1 => .threeCardBrag
  | 2 => .poker
  | 3 => .bridge
  | 4 => .rummy
  | 5 => .scrabble
  | 6 => .wordSearch
  | 7 => .crosswords
  | _ => .claim

/-- The Match account, from src/state/match_state.rs.  Fixed byte arrays are
lists of Nat; `committed_hand_hashes : [u8; 320]` is kept as its ten aligned
32-byte chunks (all source accesses are chunkwise at offsets 32*i);
`declared_suits : [u8; 5]` keeps the packed two-nibbles-per-byte layout. -/
structure Match where
  match_id : List Nat
  version : List Nat
  game_name : List Nat
  game_type : Nat
  seed : Nat
  phase : Nat
  current_player : Nat
  player_ids : List (List Nat)
  player_count : Nat
  move_count : Nat
  created_at : Int
  ended_at : Int
  match_hash : List Nat
  hot_url : List Nat
  authority : Nat
  declared_suits : List Nat
  flags : Nat
  floor_card_hash : List Nat
  hand_sizes : List Nat
  committed_hand_hashes : List (List Nat)
  last_nonce : List Nat
  deriving DecidableEq, Repr

def Match.get_game_config (m : Match) : GameConfig :=
  (get_game_type m.game_type).get_config

def Match.is_full (m : Match) : Bool :=
  m.player_count ≥ m.get_game_config.max_players

def Match.has_minimum_players (m : Match) : Bool :=
  m.player_count ≥ m.get_game_config.min_players

def Match.get_min_players (m : Match) : Nat :=
  m.get_game_config.min_players

def Match.get_max_players (m : Match) : Nat :=
  m.get_game_config.max_players

/-- Low nibble of a byte: `b & 0x0F`. -/
def nib_lo (b : Nat) : Nat := b &&& 0x0F

/-- High nibble of a byte as read by get_declared_suit:
`(b & (0x0F << 4)) >> 4`. -/
def nib_hi (b : Nat) : Nat := (b &&& (0x0F <<< 4)) >>> 4

/-- High nibble as read by is_suit_locked: `(b >> 4) & 0x0F`. -/
def nib_hi' (b : Nat) : Nat := (b >>> 4) &&& 0x0F

/-- Match::get_declared_suit, from src/state/match_state.rs: extracts the
4-bit field of player `i` from the packed bitfield; 0 means undeclared,
1..4 encode suits 0..3. -/
def Match.get_declared_suit (m : Match) (player_index : Nat) : Option Nat :=
  if player_index ≥ 10 then none
  else
    let byte_index := player_index / 2
    let bit_offset := (player_index % 2) * 4
    let mask := 0x0F <<< bit_offset
    let suit_value := ((m.declared_suits.getD byte_index 0) &&& mask) >>> bit_offset
    if suit_value = 0 then none else some (suit_value - 1)

def Match.has_declared_suit (m : Match) (player_index : Nat) : Bool :=
  if player_index ≥ 10 then false
  else (m.get_declared_suit player_index).isSome

/-- Match::is_suit_locked, from src/state/match_state.rs: scans both nibbles
of each of the five packed bytes for the value `suit + 1`. -/
def Match.is_suit_locked (m : Match) (suit : Nat) : Bool :=
  let suit_value := suit + 1
  m.declared_suits.any (fun b => nib_lo b == suit_value || nib_hi' b == suit_value)

/-- Match::set_declared_suit, from src/state/match_state.rs.  `255 ^^^ mask`
is the u8 bitwise complement `!mask`. -/
def Match.set_declared_suit (m : Match) (player_index : Nat) (suit : Nat) : Match :=
  if player_index ≥ 10 ∨ suit > 3 then m
  else
    let suit_value := suit + 1
    let byte_index := player_index / 2
    let bit_offset := (player_index % 2) * 4
    let mask := 0x0F <<< bit_offset
    let b := m.declared_suits.getD byte_index 0
    { m with declared_suits :=
        m.declared_suits.set byte_index ((b &&& (255 ^^^ mask)) ||| (suit_value <<< bit_offset)) }

def Match.floor_card_revealed (m : Match) : Bool :=
  (m.flags &&& 0x01) != 0

/-- `flags &= !0x01` is `flags &&& 254` on u8. -/
def Match.set_floor_card_revealed (m : Match) (revealed : Bool) : Match :=
  if revealed then { m with flags := m.flags ||| 0x01 }
  else { m with flags := m.flags &&& 254 }

def Match.all_players_joined (m : Match) : Bool :=
  (m.flags &&& 0x02) != 0

/-- `flags &= !0x02` is `flags &&& 253` on u8. -/
def Match.set_all_players_joined (m : Match) (joined : Bool) : Match :=
  if joined then { m with flags := m.flags ||| 0x02 }
  else { m with flags := m.flags &&& 253 }

def Match.can_join (m : Match) : Bool :=
  m.phase == 0 && !m.is_full && !m.all_players_joined

def Match.is_ended (m : Match) : Bool :=
  m.ended_at != 0

def Match.get_last_nonce (m : Match) (player_index : Nat) : Nat :=
  if player_index ≥ 10 then 0 else m.last_nonce.getD player_index 0

def Match.set_last_nonce (m : Match) (player_index : Nat) (nonce : Nat) : Match :=
  if player_index < 10 then { m with last_nonce := m.last_nonce.set player_index nonce }
  else m

def zero_hash32 : List Nat := List.replicate 32 0

def Match.get_committed_hand_hash (m : Match) (player_index : Nat) : Option (List Nat) :=
  if player_index ≥ 10 then none
  else
    let h := m.committed_hand_hashes.getD player_index zero_hash32
    if h.all (fun b => b == 0) then none else some h

def Match.set_committed_hand_hash (m : Match) (player_index : Nat) (h : List Nat) : Match :=
  if player_index < 10 then
    { m with committed_hand_hashes := m.committed_hand_hashes.set player_index h }
  else m

def Match.get_floor_card_hash (m : Match) : Option (List Nat) :=
  if m.floor_card_hash.all (fun b => b == 0) then none else some m.floor_card_hash

def Match.set_floor_card_hash (m : Match) (h : List Nat) : Match :=
  { m with floor_card_hash := h }

def Match.clear_floor_card_hash (m : Match) : Match :=
  { m with floor_card_hash := List.replicate 32 0 }

def Match.get_hand_size (m : Match) (player_index : Nat) : Nat :=
  if player_index ≥ 10 then 0 else m.hand_sizes.getD player_index 0

def Match.set_hand_size (m : Match) (player_index : Nat) (size : Nat) : Match :=
  if player_index < 10 then { m with hand_sizes := m.hand_sizes.set player_index size }
  else m

def Match.set_player_id (m : Match) (player_index : Nat) (user_id : List Nat) : Match :=
  if player_index < 10 then { m with player_ids := m.player_ids.set player_index user_id }
  else m

/-- One slot test of Match::find_player_index: the candidate id is a leading
segment of the stored 64-byte slot and the remaining stored bytes are all
zero, or the two are bytewise equal. -/
def uid_slot_matches (stored user_id : List Nat) : Bool :=
  (user_id.isPrefixOf stored && (stored.drop user_id.length).all (fun b => b == 0))
    || stored == user_id

def find_player_index_go (slots : List (List Nat)) (user_id : List Nat) (i : Nat) : Option Nat :=
  match slots with
  | [] => none
  | s :: rest => if uid_slot_matches s user_id then some i else find_player_index_go rest user_id (i + 1)

/-- Match::find_player_index, from src/state/match_state.rs: first slot (over
all 10 fixed slots, joined or not) matched by the null-padded comparison. -/
def Match.find_player_index (m : Match) (user_id : List Nat) : Option Nat :=
  find_player_index_go m.player_ids user_id 0

def Match.has_player_id (m : Match) (user_id : List Nat) : Bool :=
  (m.find_player_index user_id).isSome

/-- require!(cond, err) from anchor: error return on a failed check. -/
def requireC (p : Prop) [Decidable p] (e : GameError) : Except GameError Unit :=
  if p then .ok () else .error e

/-- Null-pad a ≤64-byte user id to the fixed 64-byte array the handlers build. -/
def pad64 (user_id : List Nat) : List Nat :=
  user_id.take 64 ++ List.replicate (64 - (user_id.take 64).length) 0

/-- Null-pad a ≤36-byte match id to the fixed 36-byte array. -/
def pad36 (match_id : List Nat) : List Nat :=
  match_id.take 36 ++ List.replicate (36 - (match_id.take 36).length) 0

/- ===================== validation.rs ===================== -/

/-- validate_pick_up, from src/validation.rs. -/
def validate_pick_up (m : Match) (player_index : Nat) (payload : List Nat) :
    Except GameError Unit := do
  requireC (m.phase = 1) .invalidPhase
  requireC (m.current_player = player_index % 256) .notPlayerTurn
  requireC (m.floor_card_revealed = true) .invalidPhase
  requireC (payload.length ≥ 32) .invalidPayload
  let card_hash := payload.take 32
  match m.get_floor_card_hash with
  | some floor_hash => requireC (card_hash = floor_hash) .invalidPayload
  | none => .error .invalidPhase
  let max_hand_size := 13
  let current_hand_size := m.get_hand_size player_index
  requireC (current_hand_size < max_hand_size) .invalidPayload

/-- validate_decline, from src/validation.rs. -/
def validate_decline (m : Match) (player_index : Nat) (_payload : List Nat) :
    Except GameError Unit := do
  requireC (m.phase = 1) .invalidPhase
  requireC (m.current_player = player_index % 256) .notPlayerTurn
  requireC (m.floor_card_revealed = true) .invalidPhase

/-- validate_declare_intent, from src/validation.rs. -/
def validate_declare_intent (m : Match) (player_index : Nat) (payload : List Nat) :
    Except GameError Unit := do
  requireC (m.phase = 1) .invalidPhase
  requireC (payload.length ≥ 1) .invalidPayload
  let suit := payload.getD 0 0
  requireC (suit < 4) .invalidPayload
  requireC (m.has_declared_suit player_index = false) .invalidAction
  requireC (m.is_suit_locked suit = false) .invalidAction

/-- validate_call_showdown, from src/validation.rs. -/
def validate_call_showdown (m : Match) (player_index : Nat) (_payload : List Nat) :
    Except GameError Unit := do
  requireC (m.phase = 1) .invalidPhase
  requireC (m.has_declared_suit player_index = true) .invalidAction

/-- Ascending sort of three u8 values (the `values.sort()` of is_valid_run). -/
def sort3 (a b c : Nat) : Nat × Nat × Nat :=
  let lo := min a (min b c)
  let hi := max a (max b c)
  (lo, a + b + c - lo - hi, hi)

/-- is_valid_run, from src/validation.rs.  The successor comparisons are on
u8, hence the `% 256` (release-profile wrapping arithmetic of the on-chain
build; the sums stay below 256 for every run the check accepts). -/
def is_valid_run (cards : (Nat × Nat) × (Nat × Nat) × (Nat × Nat)) : Bool :=
  let ((s0, v0), (s1, v1), (s2, v2)) := cards
  if s0 != s1 || s1 != s2 then false
  else
    let (a, b, c) := sort3 v0 v1 v2
    if b == (a + 1) % 256 && c == (b + 1) % 256 then true
    else if a == 2 && b == 13 && c == 14 then true
    else false

/-- The rebuttal run-value loop of validate_rebuttal: for each player below
player_count with a declared suit, compare the (u8-wrapping) sum of the three
revealed values against highest_declared_value, which starts at 0 and is
never updated by the source. -/
def rebuttal_value_loop (m : Match) (run_value : Nat) (highest : Nat) : Nat → Except GameError Unit
  | 0 => .ok ()
  | fuel + 1 =>
    let i := m.player_count - (fuel + 1)
    match m.get_declared_suit i with
    | some _ =>
      if run_value ≤ highest then .error .invalidPayload
      else rebuttal_value_loop m run_value highest fuel
    | none => rebuttal_value_loop m run_value highest fuel

/-- validate_rebuttal, from src/validation.rs.  `run_value` is a chain of u8
additions, modelled with wrapping (`% 256`). -/
def validate_rebuttal (m : Match) (player_index : Nat) (payload : List Nat) :
    Except GameError Unit := do
  requireC (m.phase = 1) .invalidPhase
  requireC (m.has_declared_suit player_index = false) .invalidAction
  requireC (payload.length ≥ 6) .invalidPayload
  let cards := ((payload.getD 0 0, payload.getD 1 0),
                (payload.getD 2 0, payload.getD 3 0),
                (payload.getD 4 0, payload.getD 5 0))
  requireC (is_valid_run cards = true) .invalidPayload
  let run_value := (payload.getD 1 0 + payload.getD 3 0 + payload.getD 5 0) % 256
  rebuttal_value_loop m run_value 0 m.player_count

/-- validate_move, from src/validation.rs. -/
def validate_move (m : Match) (player_index : Nat) (action_type : Nat) (payload : List Nat) :
    Except GameError Unit := do
  requireC (player_index < m.get_max_players) .playerNotInMatch
  match action_type with
  | 0 => validate_pick_up m player_index payload
  | 1 => validate_decline m player_index payload
  | 2 => validate_declare_intent m player_index payload
  | 3 => validate_call_showdown m player_index payload
  | 4 => validate_rebuttal m player_index payload
  | _ => .error .invalidAction

/-- validate_card_hash, from src/validation.rs: requires a non-zero committed
hand hash and a ≥6-byte payload.  The SHA-256 digest the source computes over
the sorted triple is never compared to anything (the subset check is deferred
off-chain), so it does not influence the result and is omitted here. -/
def validate_card_hash (m : Match) (player_index : Nat) (payload : List Nat) :
    Except GameError Unit := do
  match m.get_committed_hand_hash player_index with
  | none => .error .cardHashMismatch
  | some _ => .ok ()
  requireC (payload.length ≥ 6) .invalidPayload

/- ===================== instruction handlers ===================== -/

/-- The Move account, from src/state/move_state.rs (payload kept as the
written ≤128-byte list plus its length tag). -/
structure MoveRec where
  match_id : List Nat
  player : Nat
  move_index : Nat
  action_type : Nat
  payload : List Nat
  payload_len : Nat
  timestamp : Int
  deriving DecidableEq, Repr

/-- Move::set_payload, from src/state/move_state.rs. -/
def MoveRec.set_payload (mv : MoveRec) (data : List Nat) : Except GameError MoveRec := do
  requireC (data.length ≤ 128) .invalidPayload
  pure { mv with payload := data, payload_len := data.length }

def empty_move_rec : MoveRec :=
  { match_id := List.replicate 36 0, player := 0, move_index := 0, action_type := 0,
    payload := [], payload_len := 0, timestamp := 0 }

/-- Transaction context pieces the handlers read from the runtime. -/
structure SubmitCtx where
  player_is_signer : Bool
  player_key : Nat
  now : Int
  deriving DecidableEq, Repr

/-- i64::saturating_sub. -/
def i64_sat_sub (a b : Int) : Int :=
  max (-(2 ^ 63)) (min (2 ^ 63 - 1) (a - b))

/-- u8::saturating_add. -/
def u8_sat_add (a b : Nat) : Nat := min (a + b) 255

/-- The per-action state update of submit_move::handler (the `match
action_type` block), from src/instructions/submit_move.rs. -/
def apply_action_single (m : Match) (player_index : Nat) (action_type : Nat)
    (payload : List Nat) (now : Int) : Except GameError Match :=
  match action_type with
  | 2 =>
    if payload.length ≥ 1 then do
      let suit := payload.getD 0 0
      requireC (suit ≤ 3) .invalidPayload
      pure (m.set_declared_suit player_index suit)
    else pure m
  | 0 =>
    let m := m.set_floor_card_revealed false
    let m := m.clear_floor_card_hash
    let current_size := m.get_hand_size player_index
    let m := m.set_hand_size player_index (u8_sat_add current_size 1)
    pure { m with current_player := (player_index + 1) % m.player_count }
  | 1 =>
    let m := m.set_floor_card_revealed false
    pure { m with current_player := (player_index + 1) % m.player_count }
  | 3 =>
    pure { m with phase := 2, ended_at := now }
  | _ => pure m

/-- submit_move::handler, from src/instructions/submit_move.rs, with the
account state threaded explicitly.  Note the per-player nonce is written
before validate_move runs, exactly as in the source. -/
def submit_move_handler (m : Match) (c : SubmitCtx) (match_id user_id : List Nat)
    (action_type : Nat) (payload : List Nat) (nonce : Nat) :
    Except GameError (Match × MoveRec) := do
  requireC (c.player_is_signer = true) .unauthorized
  requireC (match_id.length = 36 ∧ match_id = m.match_id.take 36) .invalidPayload
  requireC (m.phase = 1) .invalidPhase
  requireC (m.is_ended = false) .matchAlreadyEnded
  requireC (m.has_minimum_players = true) .insufficientPlayers
  requireC (action_type ≤ 4) .invalidAction
  requireC (payload.length ≤ 128) .invalidPayload
  requireC (user_id.length ≤ 64) .invalidPayload
  let user_id_array := pad64 user_id
  match m.find_player_index user_id_array with
  | none => .error .playerNotInMatch
  | some player_index => do
    let requires_turn := action_type = 0 ∨ action_type = 1
    if requires_turn then
      requireC (m.current_player = player_index % 256) .notPlayerTurn
    requireC (c.now ≥ m.created_at) .invalidTimestamp
    if m.move_count > 0 ∧ i64_sat_sub c.now m.created_at > 300 * 10 then
      .error .invalidTimestamp
    let last_nonce := m.get_last_nonce player_index
    requireC (nonce > last_nonce) .invalidNonce
    let m := m.set_last_nonce player_index nonce
    validate_move m player_index action_type payload
    if action_type = 4 then
      validate_card_hash m player_index payload
    let match_id_array := pad36 match_id
    let mv0 : MoveRec :=
      { match_id := match_id_array, player := c.player_key,
        move_index := m.move_count, action_type := action_type,
        payload := [], payload_len := 0, timestamp := c.now }
    let mv ← mv0.set_payload payload
    let m ← apply_action_single m player_index action_type payload c.now
    pure ({ m with move_count := m.move_count + 1 }, mv)

/-- The state the runtime persists for a submit_move transaction: the
handler's result on success, the untouched original account on error
(Anchor aborts the transaction and writes nothing back). -/
def submit_move_persist (m : Match) (c : SubmitCtx) (match_id user_id : List Nat)
    (action_type : Nat) (payload : List Nat) (nonce : Nat) : Match :=
  match submit_move_handler m c match_id user_id action_type payload nonce with
  | .ok (m2, _) => m2
  | .error _ => m

/-- BatchMove, from src/instructions/submit_batch_moves.rs. -/
structure BatchMove where
  action_type : Nat
  payload : List Nat
  nonce : Nat
  deriving DecidableEq, Repr

/-- The per-action state update of submit_batch_moves::handler; unlike the
single-move handler it does not advance current_player inside the match (the
turn pointer is advanced separately, modulo max_players). -/
def apply_action_batch (m : Match) (player_index : Nat) (action_type : Nat)
    (payload : List Nat) (now : Int) : Except GameError Match :=
  match action_type with
  | 2 =>
    if payload.length ≥ 1 then do
      let suit := payload.getD 0 0
      requireC (suit ≤ 3) .invalidPayload
      pure (m.set_declared_suit player_index suit)
    else pure m
  | 0 =>
    let m := m.set_floor_card_revealed false
    let m := m.clear_floor_card_hash
    let current_size := m.get_hand_size player_index
    pure (m.set_hand_size player_index (u8_sat_add current_size 1))
  | 1 =>
    pure (m.set_floor_card_revealed false)
  | 3 =>
    pure { m with phase := 2, ended_at := now }
  | _ => pure m

/-- The `for (batch_idx, batch_move) in moves.iter().enumerate()` loop of
submit_batch_moves::handler, threading (match state, active player index,
move index, created move accounts). -/
def batch_loop (c : SubmitCtx) (match_id_array : List Nat) :
    List BatchMove → Nat → Match → Nat → Nat → List MoveRec →
    Except GameError (Match × Nat × Nat × List MoveRec)
  | [], _, m, cur, mvidx, recs => pure (m, cur, mvidx, recs)
  | bm :: rest, batch_idx, m, cur, mvidx, recs => do
    requireC (batch_idx < 5) .invalidPayload
    requireC (bm.action_type ≤ 4) .invalidAction
    requireC (bm.payload.length ≤ 128) .invalidPayload
    let last_nonce := m.get_last_nonce cur
    requireC (bm.nonce > last_nonce) .invalidNonce
    let m := m.set_last_nonce cur bm.nonce
    validate_move m cur bm.action_type bm.payload
    if bm.action_type = 4 then
      validate_card_hash m cur bm.payload
    let mv0 : MoveRec :=
      { match_id := match_id_array, player := c.player_key,
        move_index := mvidx, action_type := bm.action_type,
        payload := [], payload_len := 0, timestamp := c.now }
    let mv ← mv0.set_payload bm.payload
    let m ← apply_action_batch m cur bm.action_type bm.payload c.now
    let requires_turn := bm.action_type = 0 ∨ bm.action_type = 1
    if requires_turn then
      requireC (m.current_player = cur % 256) .notPlayerTurn
    let cur2 := if requires_turn then (cur + 1) % m.get_max_players else cur
    batch_loop c match_id_array rest (batch_idx + 1) m cur2 (mvidx + 1) (recs ++ [mv])

/-- submit_batch_moves::handler, from src/instructions/submit_batch_moves.rs. -/
def submit_batch_handler (m : Match) (c : SubmitCtx) (match_id user_id : List Nat)
    (moves : List BatchMove) : Except GameError (Match × List MoveRec) := do
  requireC (moves.length > 0 ∧ moves.length ≤ 5) .invalidPayload
  requireC (c.player_is_signer = true) .unauthorized
  requireC (match_id.length = 36 ∧ match_id = m.match_id.take 36) .invalidPayload
  requireC (m.phase = 1) .invalidPhase
  requireC (m.is_ended = false) .matchAlreadyEnded
  requireC (m.has_minimum_players = true) .insufficientPlayers
  requireC (user_id.length ≤ 64) .invalidPayload
  let user_id_array := pad64 user_id
  match m.find_player_index user_id_array with
  | none => .error .playerNotInMatch
  | some player_index => do
    let match_id_array := pad36 match_id
    let (m2, cur, mvidx, recs) ←
      batch_loop c match_id_array moves 0 m player_index m.move_count []
    pure ({ m2 with move_count := mvidx, current_player := cur % 256 }, recs)

/-- Persisted state of a submit_batch_moves transaction (rollback on error). -/
def submit_batch_persist (m : Match) (c : SubmitCtx) (match_id user_id : List Nat)
    (moves : List BatchMove) : Match :=
  match submit_batch_handler m c match_id user_id moves with
  | .ok (m2, _) => m2
  | .error _ => m

/-- join_match::handler, from src/instructions/join_match.rs. -/
def join_match_handler (m : Match) (player_is_signer : Bool) (match_id user_id : List Nat) :
    Except GameError Match := do
  requireC (match_id.length = 36 ∧ match_id = m.match_id.take 36) .invalidPayload
  requireC (player_is_signer = true) .unauthorized
  requireC (m.can_join = true) .matchFull
  requireC (m.phase = 0) .invalidPhase
  requireC (user_id.length ≤ 64) .invalidPayload
  let user_id_array := pad64 user_id
  requireC (m.has_player_id user_id_array = false) .playerNotInMatch
  let player_index := m.player_count
  requireC (player_index < m.get_max_players ∧ player_index < 10) .matchFull
  let m := m.set_player_id player_index user_id_array
  let m := { m with player_count := m.player_count + 1 }
  let m := if m.player_count ≥ m.get_max_players then m.set_all_players_joined true else m
  pure m

/-- commit_hand::handler, from src/instructions/commit_hand.rs. -/
def commit_hand_handler (m : Match) (player_is_signer : Bool) (match_id user_id : List Nat)
    (hand_hash : List Nat) (hand_size : Nat) : Except GameError Match := do
  requireC (match_id.length = 36 ∧ match_id = m.match_id.take 36) .invalidPayload
  requireC (player_is_signer = true) .unauthorized
  requireC (m.phase = 0) .invalidPhase
  requireC (user_id.length ≤ 64) .invalidPayload
  let user_id_array := pad64 user_id
  match m.find_player_index user_id_array with
  | none => .error .playerNotInMatch
  | some player_index => do
    requireC (¬ hand_hash.all (fun b => b == 0)) .invalidPayload
    requireC (hand_size > 0 ∧ hand_size ≤ 52) .invalidPayload
    let m := m.set_committed_hand_hash player_index hand_hash
    let m := m.set_hand_size player_index hand_size
    pure m

/-- start_match::handler, from src/instructions/start_match.rs.  Note that it
resets every committed hand hash, every hand size and the floor card hash on
the Dealing → Playing transition. -/
def start_match_handler (m : Match) (authority_is_signer : Bool) (authority_key : Nat)
    (match_id : List Nat) : Except GameError Match := do
  requireC (match_id.length = 36 ∧ match_id = m.match_id.take 36) .invalidPayload
  requireC (authority_is_signer = true) .unauthorized
  requireC (authority_key = m.authority) .unauthorized
  requireC (m.phase = 0) .invalidPhase
  let min_players := m.get_min_players
  requireC (m.has_minimum_players = true) .insufficientPlayers
  requireC (m.player_count ≥ min_players ∧ m.player_count ≤ m.get_max_players)
    .insufficientPlayers
  let m := { m with phase := 1 }
  let m := m.set_all_players_joined true
  let m := { m with committed_hand_hashes := List.replicate 10 zero_hash32 }
  let m := { m with hand_sizes := List.replicate 10 0 }
  let m := { m with floor_card_hash := List.replicate 32 0 }
  pure m

/-- The on-chain score estimate of end_match::handler (the per-player loop
plus the final clamp to [-100, 200]), from src/instructions/end_match.rs. -/
def compute_scores (m : Match) : List Int :=
  let total_activity := m.move_count
  let step := fun (st : Nat × List Int) (i : Nat) =>
    let declarations_count := st.1
    let scores := st.2
    if m.has_declared_suit i then
      let declarations_count := declarations_count + 1
      let base_score : Int := 20
      let avg_moves_per_player : Nat :=
        if m.player_count > 0 then total_activity / m.player_count else 0
      let activity_score : Int := avg_moves_per_player
      let declaration_bonus : Int := if declarations_count = 1 then 5 else 0
      (declarations_count, scores.set i (base_score + activity_score + declaration_bonus))
    else
      let penalty_per_round : Int := 2
      let rounds : Int :=
        if m.player_count > 0 then (max (total_activity / m.player_count) 1 : Nat) else 1
      (declarations_count, scores.set i (-(penalty_per_round * rounds)))
  let st := (List.range m.player_count).foldl step (0, List.replicate 10 (0 : Int))
  st.2.map (fun s => max (-100) (min s 200))

/-- end_match::handler, from src/instructions/end_match.rs.  Returns the
final account state and the computed score estimate (the source logs the
scores; the Match account has no field for them). -/
def end_match_handler (m : Match) (authority_is_signer : Bool) (authority_key : Nat)
    (now : Int) (match_id : List Nat) (match_hash : Option (List Nat))
    (hot_url : Option (List Nat)) : Except GameError (Match × List Int) := do
  requireC (match_id.length = 36 ∧ match_id = m.match_id.take 36) .invalidPayload
  requireC (authority_is_signer = true) .unauthorized
  requireC (authority_key = m.authority) .unauthorized
  requireC (m.phase = 1 ∨ m.phase = 2) .invalidPhase
  let m ← match match_hash with
    | some h => do
        requireC (¬ h.all (fun b => b == 0)) .invalidPayload
        pure { m with match_hash := h }
    | none => pure m
  let m ← match hot_url with
    | some url => do
        requireC (url.length ≤ 200) .invalidPayload
        pure { m with hot_url := url.take 200 ++ List.replicate (200 - (url.take 200).length) 0 }
    | none => pure m
  let scores := compute_scores m
  let m := { m with phase := 2, ended_at := now }
  pure (m, scores)

/- ===================== dispute ===================== -/

/-- A validator vote, from src/state/dispute.rs.  `resolution` holds the
DisputeResolution discriminant (0 = favor flagger, 1 = favor defendant,
2 = match voided, 3 = partial refund). -/
structure ValidatorVote where
  validator : Nat
  resolution : Nat
  timestamp : Int
  deriving DecidableEq, Repr

/-- The Dispute account, from src/state/dispute.rs. -/
structure Dispute where
  match_id : List Nat
  flagger : Nat
  flagger_user_id : List Nat
  reason : Nat
  evidence_hash : List Nat
  gp_deposit : Nat
  gp_refunded : Bool
  created_at : Int
  resolved_at : Int
  resolution : Nat
  validator_votes : List ValidatorVote
  vote_count : Nat
  deriving DecidableEq, Repr

/-- Dispute::is_resolved, from src/state/dispute.rs. -/
def Dispute.is_resolved (d : Dispute) : Bool :=
  d.resolution != 0 && d.resolved_at != 0

/-- Dispute::add_vote, from src/state/dispute.rs. -/
def Dispute.add_vote (d : Dispute) (v : ValidatorVote) : Except GameError Dispute := do
  requireC (d.vote_count < 10) .invalidPayload
  pure { d with validator_votes := d.validator_votes.set d.vote_count v,
                vote_count := d.vote_count + 1 }

/-- The `match resolution` mapping of resolve_dispute::handler, as the
DisputeResolution discriminant. -/
def resolution_code (resolution : Nat) : Nat :=
  match resolution with
  | 1 => 0
  | 2 => 1
  | 3 => 2
  | _ => 3

/-- resolve_dispute::handler, from src/instructions/resolve_dispute.rs. -/
def resolve_dispute_handler (d : Dispute) (validator_is_signer : Bool)
    (validator_key : Nat) (now : Int) (resolution : Nat) : Except GameError Dispute := do
  requireC (validator_is_signer = true) .unauthorized
  requireC (d.is_resolved = false) .disputeAlreadyResolved
  requireC (resolution ≥ 1 ∧ resolution ≤ 4) .invalidAction
  requireC (d.gp_refunded = false ∨ d.resolution = 0) .gpDepositAlreadyProcessed
  let d := { d with resolution := resolution, resolved_at := now }
  let code := resolution_code resolution
  let d := if code = 0 then { d with gp_refunded := true } else d
  let vote : ValidatorVote := { validator := validator_key, resolution := code, timestamp := now }
  d.add_vote vote

/- ===================== leaderboard ===================== -/

/-- A leaderboard entry, from src/state/game_leaderboard.rs. -/
structure LeaderboardEntry where
  user_id : List Nat
  score : Nat
  wins : Nat
  games_played : Nat
  timestamp : Int
  deriving DecidableEq, Repr

def lb_default : LeaderboardEntry :=
  { user_id := List.replicate 64 0, score := 0, wins := 0, games_played := 0, timestamp := 0 }

/-- The GameLeaderboard account, from src/state/game_leaderboard.rs. -/
structure GameLeaderboard where
  game_type : Nat
  season_id : Nat
  entry_count : Nat
  entries : List LeaderboardEntry
  last_updated : Int
  deriving DecidableEq, Repr

/-- The binary-search loop of GameLeaderboard::find_insertion_point, run on
explicit fuel (any fuel ≥ right - left reproduces the source loop, whose
interval shrinks strictly each iteration). -/
def fip_go (entries : List LeaderboardEntry) (score : Nat) :
    Nat → Nat → Nat → Nat
  | 0, left, _ => left
  | fuel + 1, left, right =>
    if left < right then
      let mid := (left + right) / 2
      if (entries.getD mid lb_default).score > score then
        fip_go entries score fuel (mid + 1) right
      else
        fip_go entries score fuel left mid
    else left

/-- GameLeaderboard::find_insertion_point, from src/state/game_leaderboard.rs. -/
def find_insertion_point (lb : GameLeaderboard) (score : Nat) : Nat :=
  let count := lb.entry_count
  if count = 0 then 0 else fip_go lb.entries score count 0 count

/-- The `remove user's old entry` scan of insert_entry (first index below
entry_count whose user_id equals the new entry's), run on explicit fuel. -/
def find_old_go (entries : List LeaderboardEntry) (count : Nat) (uid : List Nat) :
    Nat → Nat → Option Nat
  | 0, _ => none
  | fuel + 1, k =>
    if count ≤ k then none
    else if (entries.getD k lb_default).user_id = uid then some k
    else find_old_go entries count uid fuel (k + 1)

def find_old_index (entries : List LeaderboardEntry) (count : Nat) (uid : List Nat) :
    Option Nat :=
  find_old_go entries count uid (count + 1) 0

/-- The left-shift loop of insert_entry (`for i in idx..count-1 { entries[i] =
entries[i+1] }`), run on explicit fuel. -/
def shift_left_go : Nat → List LeaderboardEntry → Nat → Nat → List LeaderboardEntry
  | 0, es, _, _ => es
  | fuel + 1, es, i, stop =>
    if i < stop then
      let es2 := if i + 1 < 100 then es.set i (es.getD (i + 1) lb_default) else es
      shift_left_go fuel es2 (i + 1) stop
    else es

/-- The right-shift loop of insert_entry (`for i in (p..count).rev() { if i <
99 { entries[i+1] = entries[i] } }`), run on explicit fuel; `i` is the first
(highest) loop index, the loop stops after processing `p`. -/
def shift_right_go : Nat → List LeaderboardEntry → Nat → Nat → List LeaderboardEntry
  | 0, es, _, _ => es
  | fuel + 1, es, p, i =>
    let es2 := if i < 99 then es.set (i + 1) (es.getD i lb_default) else es
    if p < i then shift_right_go fuel es2 p (i - 1) else es2

/-- GameLeaderboard::insert_entry, from src/state/game_leaderboard.rs.
Returns the updated leaderboard and the bool result of the source. -/
def insert_entry (lb : GameLeaderboard) (entry : LeaderboardEntry) :
    GameLeaderboard × Bool :=
  let score := entry.score
  let uid := entry.user_id
  let qualifies := lb.entry_count < 100 ∨
    (lb.entry_count > 0 ∧ score > (lb.entries.getD (lb.entry_count - 1) lb_default).score)
  if ¬ qualifies then (lb, false)
  else
    let old_index := find_old_index lb.entries lb.entry_count uid
    let st1 :=
      match old_index with
      | some idx =>
        (shift_left_go lb.entry_count lb.entries idx (lb.entry_count - 1),
         lb.entry_count - 1)
      | none => (lb.entries, lb.entry_count)
    let es1 := st1.1
    let count1 := st1.2
    let lb1 := { lb with entries := es1, entry_count := count1 }
    let p := find_insertion_point lb1 score
    let es2 := if p < count1 then shift_right_go count1 es1 p (count1 - 1) else es1
    let st3 :=
      if p < 100 then
        (es2.set p entry, if count1 < 100 then count1 + 1 else count1)
      else (es2, count1)
    ({ lb with entries := st3.1, entry_count := st3.2 }, true)

/-- The tail of insert_entry after the old-entry removal: given the
post-removal entries/count, find the insertion point, shift right and place
the new entry (definitionally equal to the corresponding piece of
insert_entry, see insert_entry_eq). -/
def insert_stage2 (lb : GameLeaderboard) (es1 : List LeaderboardEntry) (count1 : Nat)
    (e : LeaderboardEntry) : GameLeaderboard :=
  let lb1 := { lb with entries := es1, entry_count := count1 }
  let p := find_insertion_point lb1 e.score
  let es2 := if p < count1 then shift_right_go count1 es1 p (count1 - 1) else es1
  let st3 :=
    if p < 100 then (es2.set p e, if count1 < 100 then count1 + 1 else count1)
    else (es2, count1)
  { lb with entries := st3.1, entry_count := st3.2 }

/-- GameLeaderboard::get_user_rank, from src/state/game_leaderboard.rs. -/
def get_user_rank_go (entries : List LeaderboardEntry) (count : Nat) (uid : List Nat) :
    Nat → Nat → Nat
  | 0, _ => 0
  | fuel + 1, k =>
    if count ≤ k then 0
    else if (entries.getD k lb_default).user_id = uid then k + 1
    else get_user_rank_go entries count uid fuel (k + 1)

def get_user_rank (lb : GameLeaderboard) (uid : List Nat) : Nat :=
  get_user_rank_go lb.entries lb.entry_count uid (lb.entry_count + 1) 0

/-- A freshly initialized (all-zero) leaderboard account. -/
def empty_leaderboard (gt season : Nat) (t0 : Int) : GameLeaderboard :=
  { game_type := gt, season_id := season, entry_count := 0,
    entries := List.replicate 100 lb_default, last_updated := t0 }

/- ===================== predicates and sample states ===================== -/

/-- Cross-player suit exclusivity: no two distinct players hold the same
declared suit. -/
def SuitExclusive (m : Match) : Prop :=
  ∀ i j s, i ≠ j → m.get_declared_suit i = some s → m.get_declared_suit j ≠ some s

/-- The packed declared-suit array has its fixed 5-byte shape with every
byte in u8 range. -/
def suits_ok (m : Match) : Prop :=
  m.declared_suits.length = 5 ∧ ∀ k, m.declared_suits.getD k 0 < 256

/-- One accepted declare_intent move: validate_move (action 2) passes and the
handler's declare arm is applied (this is the state change an accepted
declare submission persists; declare does not read the clock). -/
def declare_step (m : Match) (i : Nat) (payload : List Nat) : Option Match :=
  match validate_move m i 2 payload, apply_action_single m i 2 payload 0 with
  | .ok _, .ok m2 => some m2
  | _, _ => none

/-- A sequence of accepted declare_intent moves. -/
def run_declares : Match → List (Nat × List Nat) → Option Match
  | m, [] => some m
  | m, (i, p) :: rest =>
    match declare_step m i p with
    | some m2 => run_declares m2 rest
    | none => none

/-- The checks of submit_move::handler that precede the nonce check, as
conditions on the inputs. -/
def submit_prechecks (m : Match) (c : SubmitCtx) (match_id user_id : List Nat)
    (action_type : Nat) (payload : List Nat) (player_index : Nat) : Prop :=
  c.player_is_signer = true ∧ match_id.length = 36 ∧ match_id = m.match_id.take 36 ∧
  m.phase = 1 ∧ m.is_ended = false ∧ m.has_minimum_players = true ∧
  action_type ≤ 4 ∧ payload.length ≤ 128 ∧ user_id.length ≤ 64 ∧
  m.find_player_index (pad64 user_id) = some player_index ∧
  ((action_type = 0 ∨ action_type = 1) → m.current_player = player_index % 256) ∧
  c.now ≥ m.created_at ∧ ¬ (m.move_count > 0 ∧ i64_sat_sub c.now m.created_at > 300 * 10) ∧
  m.player_ids.length = 10 ∧ m.last_nonce.length = 10

/-- The claim's leaderboard order: strictly descending scores over the stored
first entry_count entries. -/
def lb_strictly_descending (lb : GameLeaderboard) : Prop :=
  ∀ i j, i < j → j < lb.entry_count →
    (lb.entries.getD i lb_default).score > (lb.entries.getD j lb_default).score

/-- Non-increasing scores over the stored first entry_count entries. -/
def lb_sorted (lb : GameLeaderboard) : Prop :=
  ∀ i j, i < j → j < lb.entry_count →
    (lb.entries.getD i lb_default).score ≥ (lb.entries.getD j lb_default).score

/-- No user identity appears twice among the stored first entry_count
entries. -/
def lb_unique (lb : GameLeaderboard) : Prop :=
  ∀ i j, i < j → j < lb.entry_count →
    (lb.entries.getD i lb_default).user_id ≠ (lb.entries.getD j lb_default).user_id

/-- The maintained leaderboard invariant. -/
def lb_invariant (lb : GameLeaderboard) : Prop :=
  lb.entry_count ≤ 100 ∧ lb.entries.length = 100 ∧ lb_sorted lb ∧ lb_unique lb

/-- A sequence of insert_entry calls. -/
def run_inserts (lb : GameLeaderboard) (ms : List LeaderboardEntry) : GameLeaderboard :=
  ms.foldl (fun lb e => (insert_entry lb e).1) lb

/- Concrete states for witnesses and counterexamples. -/

def mid36 : List Nat := List.replicate 36 7

def uid_a : List Nat := [65]

def uid_b : List Nat := [66]

/-- A two-player Claim match in Playing phase (as produced by create, two
joins and start, then abstracted to explicit field values). -/
def sample_base : Match :=
  { match_id := mid36, version := [], game_name := [],
    game_type := 0, seed := 0, phase := 1, current_player := 0,
    player_ids := [pad64 uid_a, pad64 uid_b] ++ List.replicate 8 (List.replicate 64 0),
    player_count := 2, move_count := 0, created_at := 0, ended_at := 0,
    match_hash := List.replicate 32 0, hot_url := [], authority := 9,
    declared_suits := List.replicate 5 0, flags := 0,
    floor_card_hash := List.replicate 32 0,
    hand_sizes := List.replicate 10 0,
    committed_hand_hashes := List.replicate 10 zero_hash32,
    last_nonce := List.replicate 10 0 }

def sample_ctx : SubmitCtx := { player_is_signer := true, player_key := 5, now := 100 }

/-- sample_base with the turn on player 1 and a revealed floor card. -/
def sample_turn : Match := { sample_base with current_player := 1, flags := 1 }

/-- sample_base still in Dealing phase. -/
def sample_deal : Match := { sample_base with phase := 0 }

/-- sample_base with player 1 holding declared suit 2. -/
def sample_decl : Match := sample_base.set_declared_suit 1 2

/-- A rebuttal payload of three consecutive same-suit cards whose u8 values
sum past 255 (100 + 101 + 102 = 303). -/
def big_rebuttal_payload : List Nat := [0, 100, 0, 101, 0, 102]

/-- A fresh dispute as created by flag_dispute::handler. -/
def sample_dispute : Dispute :=
  { match_id := mid36, flagger := 3, flagger_user_id := pad64 uid_a, reason := 2,
    evidence_hash := List.replicate 32 1, gp_deposit := 100, gp_refunded := false,
    created_at := 10, resolved_at := 0, resolution := 0,
    validator_votes := List.replicate 10 ⟨0, 0, 0⟩, vote_count := 0 }

def lb_e1 : LeaderboardEntry :=
  { user_id := [1], score := 50, wins := 0, games_played := 0, timestamp := 0 }

def lb_e2 : LeaderboardEntry :=
  { user_id := [2], score := 50, wins := 0, games_played := 0, timestamp := 0 }

/-- An all-zero (never joined) 64-byte id slot, equal to pad64 of the empty
user id. -/
def empty_uid64 : List Nat := List.replicate 64 0

/-- Result-state extractor for Except results carrying (Match, extra). -/
def ok_state {β : Type} (r : Except GameError (Match × β)) (dflt : Match) : Match :=
  match r with
  | .ok (m, _) => m
  | .error _ => dflt

/-- Result-state extractor for Except results carrying a Match. -/
def ok_match (r : Except GameError Match) (dflt : Match) : Match :=
  match r with
  | .ok m => m
  | .error _ => dflt

/-- Score extractor for end_match results. -/
def ok_scores (r : Except GameError (Match × List Int)) : List Int :=
  match r with
  | .ok (_, s) => s
  | .error _ => []

/-- Did the transaction succeed. -/
def except_ok {α : Type} (r : Except GameError α) : Bool :=
  match r with
  | .ok _ => true
  | .error _ => false

/-- The Match state commit_hand leaves on sample_deal after player A commits
the hash 9,…,9 with hand size 13. -/
def c7_committed : Match :=
  ok_match (commit_hand_handler sample_deal true mid36 uid_a (List.replicate 32 9) 13) sample_deal

/-- An already-resolved dispute (first resolve recorded favor-defendant at
time 100). -/
def c8_resolved : Dispute :=
  { sample_dispute with resolution := 2, resolved_at := 100, vote_count := 1 }

/- ===================== reduction helpers ===================== -/

theorem requireC_bind {α : Type} (p : Prop) [Decidable p] (e : GameError)
    (k : Unit → Except GameError α) :
    requireC p e >>= k = if p then k () else .error e := by
  unfold requireC; split <;> rfl

theorem bind_ite {α β : Type} (c : Prop) [Decidable c] (x y : Except GameError α)
    (k : α → Except GameError β) :
    ((if c then x else y) >>= k) = if c then x >>= k else y >>= k := by
  split <;> rfl

theorem ok_bind {α β : Type} (a : α) (k : α → Except GameError β) :
    ((Except.ok a : Except GameError α) >>= k) = k a := rfl

theorem error_bind {α β : Type} (e : GameError) (k : α → Except GameError β) :
    ((Except.error e : Except GameError α) >>= k) = .error e := rfl

theorem map_ok {α β : Type} (f : α → β) (a : α) :
    (f <$> (Except.ok a : Except GameError α)) = .ok (f a) := rfl

/- ===================== claim theorems ===================== -/

/-- Claim C9: validation of a rebuttal (action_type 4) is total and returns
its verdict as a value for every payload — in particular it returns Ok on a
three-card run whose u8 values sum past 255 (100+101+102 = 303, wrapping to
47 under the on-chain build's release-profile u8 arithmetic), evaluated in a
state where another player has declared so the run-value comparison actually
runs. -/
theorem C9_rebuttal_validation_total :
    (∀ (m : Match) (i : Nat) (payload : List Nat),
        validate_move m i 4 payload = .ok () ∨
          ∃ e, validate_move m i 4 payload = .error e) ∧
    validate_move sample_decl 0 4 big_rebuttal_payload = .ok () ∧
    is_valid_run ((0, 100), (0, 101), (0, 102)) = true := by
  refine ⟨?_, rfl, rfl⟩
  intro m i payload
  cases h : validate_move m i 4 payload with
  | ok u => exact Or.inl rfl
  | error e => exact Or.inr ⟨e, rfl⟩

/-- Claim C6: in a 2-player Claim match (max_players 4) with the turn on
player 1, an accepted batched decline advances the stored current_player to
(1+1) % max_players = 2, which is not strictly less than player_count = 2 —
the batch handler advances the turn modulo max_players, violating the
current_player < player_count invariant the single-move handler maintains. -/
theorem C6_batch_turn_exceeds_player_count :
    except_ok (submit_batch_handler sample_turn sample_ctx mid36 uid_b
      [{ action_type := 1, payload := [], nonce := 1 }]) = true ∧
    (ok_state (submit_batch_handler sample_turn sample_ctx mid36 uid_b
      [{ action_type := 1, payload := [], nonce := 1 }]) sample_turn).current_player = 2 ∧
    sample_turn.player_count = 2 ∧
    (ok_state (submit_batch_handler sample_turn sample_ctx mid36 uid_b
      [{ action_type := 1, payload := [], nonce := 1 }]) sample_turn).player_count = 2 := by
  exact ⟨rfl, rfl, rfl, rfl⟩

/-- Claim C7: a recorded non-zero hand commitment is not immutable before the
match ends: on the concrete Dealing match where player A committed the
non-zero hash 9,…,9, (a) the start transition (Dealing → Playing, match not
Ended) clears the commitment to zero, and (b) a repeated commit_hand by the
same player overwrites it with 8,…,8. -/
theorem C7_commitment_not_immutable :
    except_ok (commit_hand_handler sample_deal true mid36 uid_a (List.replicate 32 9) 13) = true ∧
    c7_committed.get_committed_hand_hash 0 = some (List.replicate 32 9) ∧
    except_ok (start_match_handler c7_committed true 9 mid36) = true ∧
    (ok_match (start_match_handler c7_committed true 9 mid36) c7_committed).get_committed_hand_hash 0
      = none ∧
    (ok_match (start_match_handler c7_committed true 9 mid36) c7_committed).phase = 1 ∧
    (ok_match (start_match_handler c7_committed true 9 mid36) c7_committed).is_ended = false ∧
    (ok_match (commit_hand_handler c7_committed true mid36 uid_a (List.replicate 32 8) 13)
      c7_committed).get_committed_hand_hash 0 = some (List.replicate 32 8) := by
  exact ⟨rfl, rfl, rfl, rfl, rfl, rfl, rfl⟩

/-- Claim C5 (counterexample): ending the sample match at time 100 and ending
it again at time 200 succeeds both times, but the second call overwrites
ended_at from 100 to 200 — ended_at does change on the second call (the
computed scores are identical). -/
theorem C5_second_end_restamps_ended_at :
    except_ok (end_match_handler sample_base true 9 100 mid36 none none) = true ∧
    (ok_state (end_match_handler sample_base true 9 100 mid36 none none) sample_base).ended_at
      = 100 ∧
    except_ok (end_match_handler
      (ok_state (end_match_handler sample_base true 9 100 mid36 none none) sample_base)
      true 9 200 mid36 none none) = true ∧
    (ok_state (end_match_handler
      (ok_state (end_match_handler sample_base true 9 100 mid36 none none) sample_base)
      true 9 200 mid36 none none) sample_base).ended_at = 200 ∧
    ok_scores (end_match_handler
      (ok_state (end_match_handler sample_base true 9 100 mid36 none none) sample_base)
      true 9 200 mid36 none none)
      = ok_scores (end_match_handler sample_base true 9 100 mid36 none none) := by
  exact ⟨rfl, rfl, rfl, rfl, rfl⟩

/-- Claim C5 (amended): calling end on an already-Ended match succeeds, the
computed scores are exactly those of the first call (the score estimate reads
only player_count, move_count and the declared suits, which end does not
change), and the only state change is re-stamping ended_at with the current
clock value (so ended_at is unchanged only if the clock has not advanced). -/
theorem C5_end_idempotent_amended :
    ∀ (m : Match) (now : Int) (mid : List Nat),
      m.phase = 2 → mid.length = 36 → mid = m.match_id.take 36 →
      end_match_handler m true m.authority now mid none none =
        .ok ({ m with phase := 2, ended_at := now }, compute_scores m) ∧
      compute_scores { m with phase := 2, ended_at := now } = compute_scores m := by
  intro m now mid h1 h2 h3
  constructor
  · unfold end_match_handler
    have h4 : (36 : Nat) ≤ m.match_id.length := by
      have h5 := h2; rw [h3] at h5; simpa using h5
    simp [requireC_bind, requireC, map_ok, ok_bind, h1, h3, h4]
  · rfl

/-- Claim C5 witness: the amended theorem applied to the already-ended sample
match at clock 200. -/
theorem C5_end_idempotent_witness :
    end_match_handler { sample_base with phase := 2 } true 9 200 mid36 none none =
      .ok ({ sample_base with phase := 2, ended_at := 200 },
           compute_scores { sample_base with phase := 2 }) := by
  exact (C5_end_idempotent_amended { sample_base with phase := 2 } 200 mid36 rfl rfl rfl).1

/-- Claim C8 (counterexample): on a dispute already resolved (resolution 2,
resolved_at 100), a further resolve call is rejected with
DisputeAlreadyResolved — it does not append a vote, contradicting the claim
that subsequent resolve calls may still append votes. -/
theorem C8_resolved_dispute_rejects_votes :
    resolve_dispute_handler c8_resolved true 4 200 2 = .error .disputeAlreadyResolved ∧
    c8_resolved.resolution = 2 ∧ c8_resolved.resolved_at = 100 ∧
    c8_resolved.vote_count = 1 := by
  exact ⟨rfl, rfl, rfl, rfl⟩

/-- Claim C8 (amended): the first resolve call on an unresolved dispute with
resolution in 1..4 succeeds, sets resolution and resolved_at, sets
gp_refunded to true exactly when the resolution is favor-flagger (code 1,
otherwise it stays false/forfeited) and appends the validator's vote; every
resolve call on a dispute whose resolution and resolved_at are both set is
rejected with DisputeAlreadyResolved and appends nothing. -/
theorem C8_resolve_first_call_finalizes :
    (∀ (d : Dispute) (vkey : Nat) (now : Int) (r : Nat),
        d.is_resolved = false → 1 ≤ r → r ≤ 4 → d.gp_refunded = false →
        d.vote_count < 10 →
        ∃ d2, resolve_dispute_handler d true vkey now r = .ok d2 ∧
          d2.resolution = r ∧ d2.resolved_at = now ∧
          (d2.gp_refunded = true ↔ r = 1) ∧
          d2.vote_count = d.vote_count + 1 ∧
          d2.validator_votes = d.validator_votes.set d.vote_count
            { validator := vkey, resolution := resolution_code r, timestamp := now }) ∧
    (∀ (d : Dispute) (vkey : Nat) (now : Int) (r : Nat),
        d.is_resolved = true →
        resolve_dispute_handler d true vkey now r = .error .disputeAlreadyResolved) := by
  constructor
  · intro d vkey now r h1 h2 h3 h4 h5
    interval_cases r <;>
      simp [resolve_dispute_handler, Dispute.add_vote, requireC_bind, requireC, map_ok,
        ok_bind, resolution_code, h1, h4, h5]
  · intro d vkey now r h
    simp [resolve_dispute_handler, requireC_bind, h]

/-- Claim C8 witness: the amended theorem applied to the fresh sample dispute
(favor-flagger resolution at time 50) and to the already-resolved dispute. -/
theorem C8_resolve_witness :
    (∃ d2, resolve_dispute_handler sample_dispute true 4 50 1 = .ok d2 ∧
        d2.resolution = 1 ∧ d2.resolved_at = 50 ∧
        (d2.gp_refunded = true ↔ (1 : Nat) = 1) ∧
        d2.vote_count = sample_dispute.vote_count + 1 ∧
        d2.validator_votes = sample_dispute.validator_votes.set sample_dispute.vote_count
          { validator := 4, resolution := resolution_code 1, timestamp := 50 }) ∧
    resolve_dispute_handler c8_resolved true 4 200 2 = .error .disputeAlreadyResolved := by
  constructor
  · exact C8_resolve_first_call_finalizes.1 sample_dispute 4 50 1 rfl (by norm_num)
      (by norm_num) rfl (by norm_num [sample_dispute])
  · exact C8_resolve_first_call_finalizes.2 c8_resolved 4 200 2 rfl

theorem last_nonce_set_declared_suit (m : Match) (i s : Nat) :
    (m.set_declared_suit i s).last_nonce = m.last_nonce := by
  unfold Match.set_declared_suit; split <;> rfl

theorem last_nonce_set_floor (m : Match) (b : Bool) :
    (m.set_floor_card_revealed b).last_nonce = m.last_nonce := by
  unfold Match.set_floor_card_revealed; split <;> rfl

theorem last_nonce_clear_floor (m : Match) :
    (m.clear_floor_card_hash).last_nonce = m.last_nonce := rfl

theorem last_nonce_set_hand_size (m : Match) (i v : Nat) :
    (m.set_hand_size i v).last_nonce = m.last_nonce := by
  unfold Match.set_hand_size; split <;> rfl

theorem apply_single_last_nonce (m : Match) (i a : Nat) (p : List Nat) (t : Int)
    (m2 : Match) (h : apply_action_single m i a p t = .ok m2) :
    m2.last_nonce = m.last_nonce := by
  unfold apply_action_single at h
  split at h
  all_goals first
    | (split at h
       all_goals first
         | (simp only [requireC_bind, pure_bind] at h
            split_ifs at h
            all_goals first
              | exact Except.noConfusion h
              | (cases h; exact last_nonce_set_declared_suit m i _))
         | (cases h; rfl))
    | (cases h;
       simp only [last_nonce_set_hand_size, last_nonce_clear_floor, last_nonce_set_floor])
    | (cases h; rfl)

theorem apply_batch_last_nonce (m : Match) (i a : Nat) (p : List Nat) (t : Int)
    (m2 : Match) (h : apply_action_batch m i a p t = .ok m2) :
    m2.last_nonce = m.last_nonce := by
  unfold apply_action_batch at h
  split at h
  all_goals first
    | (split at h
       all_goals first
         | (simp only [requireC_bind, pure_bind] at h
            split_ifs at h
            all_goals first
              | exact Except.noConfusion h
              | (cases h; exact last_nonce_set_declared_suit m i _))
         | (cases h; rfl))
    | (cases h;
       simp only [last_nonce_set_hand_size, last_nonce_clear_floor, last_nonce_set_floor])
    | (cases h; rfl)

theorem find_go_lt (slots : List (List Nat)) (uid : List Nat) (i j : Nat)
    (h : find_player_index_go slots uid i = some j) : i ≤ j ∧ j < i + slots.length := by
  induction slots generalizing i with
  | nil => exact Option.noConfusion h
  | cons s rest ih =>
    unfold find_player_index_go at h
    split at h
    · cases h; simp
    · have := ih (i + 1) h
      simp only [List.length_cons]
      omega

theorem find_player_index_lt (m : Match) (uid : List Nat) (idx : Nat)
    (h : m.find_player_index uid = some idx) : idx < m.player_ids.length := by
  have := find_go_lt m.player_ids uid 0 idx h
  omega

theorem submit_move_ok_inv (m : Match) (c : SubmitCtx) (mid uid : List Nat)
    (a : Nat) (p : List Nat) (n : Nat) (r : Match × MoveRec)
    (h : submit_move_handler m c mid uid a p n = .ok r) :
    ∃ idx, m.find_player_index (pad64 uid) = some idx ∧
      m.get_last_nonce idx < n ∧
      validate_move (m.set_last_nonce idx n) idx a p = .ok () ∧
      ∃ m3, apply_action_single (m.set_last_nonce idx n) idx a p c.now = .ok m3 ∧
        r.1 = { m3 with move_count := m3.move_count + 1 } := by
  unfold submit_move_handler at h
  by_cases h1 : c.player_is_signer = true
  case neg => rw [requireC_bind, if_neg h1] at h; exact Except.noConfusion h
  rw [requireC_bind, if_pos h1] at h
  by_cases h2 : mid.length = 36 ∧ mid = m.match_id.take 36
  case neg => rw [requireC_bind, if_neg h2] at h; exact Except.noConfusion h
  rw [requireC_bind, if_pos h2] at h
  by_cases h3 : m.phase = 1
  case neg => rw [requireC_bind, if_neg h3] at h; exact Except.noConfusion h
  rw [requireC_bind, if_pos h3] at h
  by_cases h4 : m.is_ended = false
  case neg => rw [requireC_bind, if_neg h4] at h; exact Except.noConfusion h
  rw [requireC_bind, if_pos h4] at h
  by_cases h5 : m.has_minimum_players = true
  case neg => rw [requireC_bind, if_neg h5] at h; exact Except.noConfusion h
  rw [requireC_bind, if_pos h5] at h
  by_cases h6 : a ≤ 4
  case neg => rw [requireC_bind, if_neg h6] at h; exact Except.noConfusion h
  rw [requireC_bind, if_pos h6] at h
  by_cases h7 : p.length ≤ 128
  case neg => rw [requireC_bind, if_neg h7] at h; exact Except.noConfusion h
  rw [requireC_bind, if_pos h7] at h
  by_cases h8 : uid.length ≤ 64
  case neg => rw [requireC_bind, if_neg h8] at h; exact Except.noConfusion h
  rw [requireC_bind, if_pos h8] at h
  simp only [] at h
  split at h
  · exact Except.noConfusion h
  · rename_i player_index hfind
    by_cases hrt : a = 0 ∨ a = 1
    · rw [if_pos hrt, requireC_bind] at h
      by_cases ht : m.current_player = player_index % 256
      case neg => rw [if_neg ht] at h; exact Except.noConfusion h
      rw [if_pos ht] at h
      rw [requireC_bind] at h
      by_cases hts : c.now ≥ m.created_at
      case neg => rw [if_neg hts] at h; exact Except.noConfusion h
      rw [if_pos hts] at h
      by_cases hmc : m.move_count > 0 ∧ i64_sat_sub c.now m.created_at > 300 * 10
      case pos => rw [if_pos hmc, error_bind] at h; exact Except.noConfusion h
      rw [if_neg hmc, pure_bind, requireC_bind] at h
      by_cases hn : n > m.get_last_nonce player_index
      case neg => rw [if_neg hn] at h; exact Except.noConfusion h
      rw [if_pos hn] at h
      cases hv : validate_move (m.set_last_nonce player_index n) player_index a p with
      | error e => rw [hv, error_bind] at h; exact Except.noConfusion h
      | ok u =>
        cases u
        rw [hv, ok_bind] at h
        by_cases h4a : a = 4
        · rw [if_pos h4a] at h
          cases hch : validate_card_hash (m.set_last_nonce player_index n) player_index p with
          | error e => rw [hch, error_bind] at h; exact Except.noConfusion h
          | ok u2 =>
            cases u2
            rw [hch, ok_bind] at h
            unfold MoveRec.set_payload at h
            rw [requireC_bind, if_pos h7] at h
            simp only [] at h
            rw [pure_bind] at h
            cases hap : apply_action_single (m.set_last_nonce player_index n) player_index a p c.now with
            | error e => rw [hap, error_bind] at h; exact Except.noConfusion h
            | ok m3 =>
              rw [hap, ok_bind] at h
              cases h
              exact ⟨player_index, hfind, by omega, hv, m3, hap, rfl⟩
        · rw [if_neg h4a, pure_bind] at h
          unfold MoveRec.set_payload at h
          rw [requireC_bind, if_pos h7] at h
          simp only [] at h
          rw [pure_bind] at h
          cases hap : apply_action_single (m.set_last_nonce player_index n) player_index a p c.now with
          | error e => rw [hap, error_bind] at h; exact Except.noConfusion h
          | ok m3 =>
            rw [hap, ok_bind] at h
            cases h
            exact ⟨player_index, hfind, by omega, hv, m3, hap, rfl⟩
    · rw [if_neg hrt, pure_bind] at h
      rw [requireC_bind] at h
      by_cases hts : c.now ≥ m.created_at
      case neg => rw [if_neg hts] at h; exact Except.noConfusion h
      rw [if_pos hts] at h
      by_cases hmc : m.move_count > 0 ∧ i64_sat_sub c.now m.created_at > 300 * 10
      case pos => rw [if_pos hmc, error_bind] at h; exact Except.noConfusion h
      rw [if_neg hmc, pure_bind, requireC_bind] at h
      by_cases hn : n > m.get_last_nonce player_index
      case neg => rw [if_neg hn] at h; exact Except.noConfusion h
      rw [if_pos hn] at h
      cases hv : validate_move (m.set_last_nonce player_index n) player_index a p with
      | error e => rw [hv, error_bind] at h; exact Except.noConfusion h
      | ok u =>
        cases u
        rw [hv, ok_bind] at h
        by_cases h4a : a = 4
        · rw [if_pos h4a] at h
          cases hch : validate_card_hash (m.set_last_nonce player_index n) player_index p with
          | error e => rw [hch, error_bind] at h; exact Except.noConfusion h
          | ok u2 =>
            cases u2
            rw [hch, ok_bind] at h
            unfold MoveRec.set_payload at h
            rw [requireC_bind, if_pos h7] at h
            simp only [] at h
            rw [pure_bind] at h
            cases hap : apply_action_single (m.set_last_nonce player_index n) player_index a p c.now with
            | error e => rw [hap, error_bind] at h; exact Except.noConfusion h
            | ok m3 =>
              rw [hap, ok_bind] at h
              cases h
              exact ⟨player_index, hfind, by omega, hv, m3, hap, rfl⟩
        · rw [if_neg h4a, pure_bind] at h
          unfold MoveRec.set_payload at h
          rw [requireC_bind, if_pos h7] at h
          simp only [] at h
          rw [pure_bind] at h
          cases hap : apply_action_single (m.set_last_nonce player_index n) player_index a p c.now with
          | error e => rw [hap, error_bind] at h; exact Except.noConfusion h
          | ok m3 =>
            rw [hap, ok_bind] at h
            cases h
            exact ⟨player_index, hfind, by omega, hv, m3, hap, rfl⟩


theorem getD_set_general {α : Type} (l : List α) (i j : Nat) (v d : α) :
    (l.set i v).getD j d = if i = j ∧ i < l.length then v else l.getD j d := by
  induction l generalizing i j with
  | nil => simp
  | cons x xs ih =>
    cases i with
    | zero =>
      cases j with
      | zero => simp
      | succ t => simp
    | succ si =>
      cases j with
      | zero => simp
      | succ t =>
        simp only [List.set_cons_succ, List.getD_cons_succ, ih, List.length_cons]
        by_cases hc : si = t ∧ si < xs.length
        · rw [if_pos hc, if_pos ⟨by omega, by omega⟩]
        · rw [if_neg hc, if_neg (by omega)]

theorem get_last_nonce_congr (m1 m2 : Match) (k : Nat)
    (h : m1.last_nonce = m2.last_nonce) : m1.get_last_nonce k = m2.get_last_nonce k := by
  unfold Match.get_last_nonce; rw [h]

theorem get_last_nonce_set_ge (m : Match) (i v k : Nat)
    (h : v > m.get_last_nonce i) :
    (m.set_last_nonce i v).get_last_nonce k ≥ m.get_last_nonce k := by
  unfold Match.get_last_nonce at h
  unfold Match.set_last_nonce Match.get_last_nonce
  by_cases hi : i < 10
  · rw [if_pos hi]
    simp only []
    by_cases hk : k ≥ 10
    · rw [if_pos hk, if_pos hk]
    · rw [if_neg hk, if_neg hk, getD_set_general]
      by_cases hc : i = k ∧ i < m.last_nonce.length
      · rw [if_pos hc]
        rw [if_neg (show ¬ i ≥ 10 by omega)] at h
        obtain ⟨he, h2⟩ := hc
        subst he
        omega
      · rw [if_neg hc]
  · rw [if_neg hi]

theorem get_last_nonce_set_self (m : Match) (i v : Nat)
    (hi : i < 10) (hl : i < m.last_nonce.length) :
    (m.set_last_nonce i v).get_last_nonce i = v := by
  unfold Match.set_last_nonce Match.get_last_nonce
  rw [if_pos hi, if_neg (by omega)]
  simp only []
  rw [getD_set_general, if_pos ⟨rfl, hl⟩]

theorem validate_declare_intent_ok_inv (m : Match) (i : Nat) (p : List Nat)
    (h : validate_declare_intent m i p = .ok ()) :
    m.phase = 1 ∧ p.length ≥ 1 ∧ p.getD 0 0 < 4 ∧
    m.has_declared_suit i = false ∧ m.is_suit_locked (p.getD 0 0) = false := by
  unfold validate_declare_intent at h
  simp only [requireC_bind, pure_bind] at h
  split_ifs at h with c1 c2 c3 c4
  all_goals try exact Except.noConfusion h
  unfold requireC at h
  by_cases c5 : m.is_suit_locked (p.getD 0 0) = false
  · exact ⟨c1, c2, c3, c4, c5⟩
  · rw [if_neg c5] at h; exact Except.noConfusion h

theorem validate_move_ok_lt (m : Match) (i a : Nat) (p : List Nat)
    (h : validate_move m i a p = .ok ()) : i < m.get_max_players := by
  unfold validate_move at h
  rw [requireC_bind] at h
  by_cases hc : i < m.get_max_players
  · exact hc
  · rw [if_neg hc] at h; exact Except.noConfusion h

theorem validate_move_2_inv (m : Match) (i : Nat) (p : List Nat)
    (h : validate_move m i 2 p = .ok ()) : validate_declare_intent m i p = .ok () := by
  unfold validate_move at h
  rw [requireC_bind] at h
  by_cases hc : i < m.get_max_players
  · rw [if_pos hc] at h
    exact h
  · rw [if_neg hc] at h; exact Except.noConfusion h

theorem apply_single_ok (m : Match) (i a : Nat) (p : List Nat) (t : Int)
    (ha : a ≤ 4) (hv : validate_move m i a p = .ok ()) :
    ∃ m3, apply_action_single m i a p t = .ok m3 := by
  interval_cases a
  · exact ⟨_, rfl⟩
  · exact ⟨_, rfl⟩
  · have hd := validate_declare_intent_ok_inv m i p (validate_move_2_inv m i p hv)
    refine ⟨m.set_declared_suit i (p.getD 0 0), ?_⟩
    unfold apply_action_single
    rw [if_pos hd.2.1]
    simp only [requireC_bind, pure_bind]
    rw [if_pos (show p.getD 0 0 ≤ 3 by omega)]
    rfl
  · exact ⟨_, rfl⟩
  · exact ⟨_, rfl⟩

theorem submit_move_nonce_reject (m : Match) (c : SubmitCtx) (mid uid : List Nat)
    (a : Nat) (p : List Nat) (n idx : Nat)
    (hpre : submit_prechecks m c mid uid a p idx)
    (hle : n ≤ m.get_last_nonce idx) :
    submit_move_handler m c mid uid a p n = .error .invalidNonce := by
  obtain ⟨hsig, hlen, hmid, hph, hend, hmin, ha, hp, hu, hfind, hturn, hts, hmc, hpl, hln⟩ := hpre
  unfold submit_move_handler
  rw [requireC_bind, if_pos hsig, requireC_bind, if_pos ⟨hlen, hmid⟩, requireC_bind,
    if_pos hph, requireC_bind, if_pos hend, requireC_bind, if_pos hmin, requireC_bind,
    if_pos ha, requireC_bind, if_pos hp, requireC_bind, if_pos hu]
  simp only []
  rw [hfind]
  simp only []
  by_cases hrt : a = 0 ∨ a = 1
  · rw [if_pos hrt, requireC_bind, if_pos (hturn hrt), requireC_bind, if_pos hts,
      if_neg hmc, pure_bind, requireC_bind,
      if_neg (show ¬ n > m.get_last_nonce idx by omega)]
  · rw [if_neg hrt, pure_bind, requireC_bind, if_pos hts, if_neg hmc, pure_bind,
      requireC_bind, if_neg (show ¬ n > m.get_last_nonce idx by omega)]

theorem submit_move_nonce_accept (m : Match) (c : SubmitCtx) (mid uid : List Nat)
    (a : Nat) (p : List Nat) (n idx : Nat)
    (hpre : submit_prechecks m c mid uid a p idx)
    (hn : n > m.get_last_nonce idx)
    (hv : validate_move (m.set_last_nonce idx n) idx a p = .ok ())
    (hch : a = 4 → validate_card_hash (m.set_last_nonce idx n) idx p = .ok ()) :
    ∃ m2 mv, submit_move_handler m c mid uid a p n = .ok (m2, mv) ∧
      m2.get_last_nonce idx = n := by
  obtain ⟨hsig, hlen, hmid, hph, hend, hmin, ha, hp, hu, hfind, hturn, hts, hmc, hpl, hln⟩ := hpre
  obtain ⟨m3, hap⟩ := apply_single_ok (m.set_last_nonce idx n) idx a p c.now ha hv
  unfold submit_move_handler
  rw [requireC_bind, if_pos hsig, requireC_bind, if_pos ⟨hlen, hmid⟩, requireC_bind,
    if_pos hph, requireC_bind, if_pos hend, requireC_bind, if_pos hmin, requireC_bind,
    if_pos ha, requireC_bind, if_pos hp, requireC_bind, if_pos hu]
  simp only []
  rw [hfind]
  simp only []
  by_cases hrt : a = 0 ∨ a = 1
  · rw [if_pos hrt, requireC_bind, if_pos (hturn hrt), requireC_bind, if_pos hts,
      if_neg hmc, pure_bind, requireC_bind, if_pos hn, hv, ok_bind]
    by_cases h4a : a = 4
    · rw [if_pos h4a, hch h4a, ok_bind]
      unfold MoveRec.set_payload
      rw [requireC_bind, if_pos hp]
      simp only []
      rw [pure_bind, hap, ok_bind]
      refine ⟨_, _, rfl, ?_⟩
      have h10 : idx < 10 := by
        have := find_player_index_lt m (pad64 uid) idx hfind
        omega
      have e1 : ({ m3 with move_count := m3.move_count + 1 } : Match).get_last_nonce idx
          = m3.get_last_nonce idx := get_last_nonce_congr _ _ _ rfl
      have e2 : m3.get_last_nonce idx = (m.set_last_nonce idx n).get_last_nonce idx :=
        get_last_nonce_congr _ _ _ (apply_single_last_nonce _ _ _ _ _ _ hap)
      have e3 : (m.set_last_nonce idx n).get_last_nonce idx = n :=
        get_last_nonce_set_self m idx n h10 (by omega)
      exact e1.trans (e2.trans e3)
    · rw [if_neg h4a, pure_bind]
      unfold MoveRec.set_payload
      rw [requireC_bind, if_pos hp]
      simp only []
      rw [pure_bind, hap, ok_bind]
      refine ⟨_, _, rfl, ?_⟩
      have h10 : idx < 10 := by
        have := find_player_index_lt m (pad64 uid) idx hfind
        omega
      have e1 : ({ m3 with move_count := m3.move_count + 1 } : Match).get_last_nonce idx
          = m3.get_last_nonce idx := get_last_nonce_congr _ _ _ rfl
      have e2 : m3.get_last_nonce idx = (m.set_last_nonce idx n).get_last_nonce idx :=
        get_last_nonce_congr _ _ _ (apply_single_last_nonce _ _ _ _ _ _ hap)
      have e3 : (m.set_last_nonce idx n).get_last_nonce idx = n :=
        get_last_nonce_set_self m idx n h10 (by omega)
      exact e1.trans (e2.trans e3)
  · rw [if_neg hrt, pure_bind, requireC_bind, if_pos hts, if_neg hmc, pure_bind,
      requireC_bind, if_pos hn, hv, ok_bind]
    by_cases h4a : a = 4
    · rw [if_pos h4a, hch h4a, ok_bind]
      unfold MoveRec.set_payload
      rw [requireC_bind, if_pos hp]
      simp only []
      rw [pure_bind, hap, ok_bind]
      refine ⟨_, _, rfl, ?_⟩
      have h10 : idx < 10 := by
        have := find_player_index_lt m (pad64 uid) idx hfind
        omega
      have e1 : ({ m3 with move_count := m3.move_count + 1 } : Match).get_last_nonce idx
          = m3.get_last_nonce idx := get_last_nonce_congr _ _ _ rfl
      have e2 : m3.get_last_nonce idx = (m.set_last_nonce idx n).get_last_nonce idx :=
        get_last_nonce_congr _ _ _ (apply_single_last_nonce _ _ _ _ _ _ hap)
      have e3 : (m.set_last_nonce idx n).get_last_nonce idx = n :=
        get_last_nonce_set_self m idx n h10 (by omega)
      exact e1.trans (e2.trans e3)
    · rw [if_neg h4a, pure_bind]
      unfold MoveRec.set_payload
      rw [requireC_bind, if_pos hp]
      simp only []
      rw [pure_bind, hap, ok_bind]
      refine ⟨_, _, rfl, ?_⟩
      have h10 : idx < 10 := by
        have := find_player_index_lt m (pad64 uid) idx hfind
        omega
      have e1 : ({ m3 with move_count := m3.move_count + 1 } : Match).get_last_nonce idx
          = m3.get_last_nonce idx := get_last_nonce_congr _ _ _ rfl
      have e2 : m3.get_last_nonce idx = (m.set_last_nonce idx n).get_last_nonce idx :=
        get_last_nonce_congr _ _ _ (apply_single_last_nonce _ _ _ _ _ _ hap)
      have e3 : (m.set_last_nonce idx n).get_last_nonce idx = n :=
        get_last_nonce_set_self m idx n h10 (by omega)
      exact e1.trans (e2.trans e3)


theorem batch_loop_nonce_mono (c : SubmitCtx) (arr : List Nat) :
    ∀ (mvs : List BatchMove) (bidx : Nat) (m : Match) (cur mvidx : Nat)
      (recs : List MoveRec) (out : Match × Nat × Nat × List MoveRec),
      batch_loop c arr mvs bidx m cur mvidx recs = .ok out →
      ∀ k, out.1.get_last_nonce k ≥ m.get_last_nonce k := by
  intro mvs
  induction mvs with
  | nil =>
    intro bidx m cur mvidx recs out h k
    unfold batch_loop at h
    cases h
    exact Nat.le_refl _
  | cons bm rest ih =>
    intro bidx m cur mvidx recs out h k
    unfold batch_loop at h
    rw [requireC_bind] at h
    by_cases c1 : bidx < 5
    case neg => rw [if_neg c1] at h; exact Except.noConfusion h
    rw [if_pos c1, requireC_bind] at h
    by_cases c2 : bm.action_type ≤ 4
    case neg => rw [if_neg c2] at h; exact Except.noConfusion h
    rw [if_pos c2, requireC_bind] at h
    by_cases c3 : bm.payload.length ≤ 128
    case neg => rw [if_neg c3] at h; exact Except.noConfusion h
    rw [if_pos c3] at h
    simp only [] at h
    rw [requireC_bind] at h
    by_cases c4 : bm.nonce > m.get_last_nonce cur
    case neg => rw [if_neg c4] at h; exact Except.noConfusion h
    rw [if_pos c4] at h
    cases hv : validate_move (m.set_last_nonce cur bm.nonce) cur bm.action_type bm.payload with
    | error e => rw [hv, error_bind] at h; exact Except.noConfusion h
    | ok u =>
      cases u
      rw [hv, ok_bind] at h
      by_cases c5 : bm.action_type = 4
      · rw [if_pos c5] at h
        cases hch : validate_card_hash (m.set_last_nonce cur bm.nonce) cur bm.payload with
        | error e => rw [hch, error_bind] at h; exact Except.noConfusion h
        | ok u2 =>
          cases u2
          rw [hch, ok_bind] at h
          unfold MoveRec.set_payload at h
          rw [requireC_bind, if_pos c3] at h
          simp only [] at h
          rw [pure_bind] at h
          cases hap : apply_action_batch (m.set_last_nonce cur bm.nonce) cur bm.action_type
              bm.payload c.now with
          | error e => rw [hap, error_bind] at h; exact Except.noConfusion h
          | ok mb =>
            rw [hap, ok_bind] at h
            by_cases c6 : bm.action_type = 0 ∨ bm.action_type = 1
            · rw [if_pos c6, requireC_bind] at h
              by_cases c7 : mb.current_player = cur % 256
              case neg => rw [if_neg c7] at h; exact Except.noConfusion h
              rw [if_pos c7] at h
              rw [if_pos c6] at h
              have hrec := ih _ _ _ _ _ _ h k
              have hlb : mb.get_last_nonce k = (m.set_last_nonce cur bm.nonce).get_last_nonce k :=
                get_last_nonce_congr _ _ _ (apply_batch_last_nonce _ _ _ _ _ _ hap)
              have hge := get_last_nonce_set_ge m cur bm.nonce k c4
              omega
            · rw [if_neg c6, pure_bind] at h
              rw [if_neg c6] at h
              have hrec := ih _ _ _ _ _ _ h k
              have hlb : mb.get_last_nonce k = (m.set_last_nonce cur bm.nonce).get_last_nonce k :=
                get_last_nonce_congr _ _ _ (apply_batch_last_nonce _ _ _ _ _ _ hap)
              have hge := get_last_nonce_set_ge m cur bm.nonce k c4
              omega
      · rw [if_neg c5, pure_bind] at h
        unfold MoveRec.set_payload at h
        rw [requireC_bind, if_pos c3] at h
        simp only [] at h
        rw [pure_bind] at h
        cases hap : apply_action_batch (m.set_last_nonce cur bm.nonce) cur bm.action_type
            bm.payload c.now with
        | error e => rw [hap, error_bind] at h; exact Except.noConfusion h
        | ok mb =>
          rw [hap, ok_bind] at h
          by_cases c6 : bm.action_type = 0 ∨ bm.action_type = 1
          · rw [if_pos c6, requireC_bind] at h
            by_cases c7 : mb.current_player = cur % 256
            case neg => rw [if_neg c7] at h; exact Except.noConfusion h
            rw [if_pos c7] at h
            rw [if_pos c6] at h
            have hrec := ih _ _ _ _ _ _ h k
            have hlb : mb.get_last_nonce k = (m.set_last_nonce cur bm.nonce).get_last_nonce k :=
              get_last_nonce_congr _ _ _ (apply_batch_last_nonce _ _ _ _ _ _ hap)
            have hge := get_last_nonce_set_ge m cur bm.nonce k c4
            omega
          · rw [if_neg c6, pure_bind] at h
            rw [if_neg c6] at h
            have hrec := ih _ _ _ _ _ _ h k
            have hlb : mb.get_last_nonce k = (m.set_last_nonce cur bm.nonce).get_last_nonce k :=
              get_last_nonce_congr _ _ _ (apply_batch_last_nonce _ _ _ _ _ _ hap)
            have hge := get_last_nonce_set_ge m cur bm.nonce k c4
            omega

theorem submit_batch_ok_nonce_mono (m : Match) (c : SubmitCtx) (mid uid : List Nat)
    (mvs : List BatchMove) (m2 : Match) (rs : List MoveRec)
    (h : submit_batch_handler m c mid uid mvs = .ok (m2, rs)) :
    ∀ k, m2.get_last_nonce k ≥ m.get_last_nonce k := by
  unfold submit_batch_handler at h
  rw [requireC_bind] at h
  by_cases c1 : mvs.length > 0 ∧ mvs.length ≤ 5
  case neg => rw [if_neg c1] at h; exact Except.noConfusion h
  rw [if_pos c1, requireC_bind] at h
  by_cases c2 : c.player_is_signer = true
  case neg => rw [if_neg c2] at h; exact Except.noConfusion h
  rw [if_pos c2, requireC_bind] at h
  by_cases c3 : mid.length = 36 ∧ mid = m.match_id.take 36
  case neg => rw [if_neg c3] at h; exact Except.noConfusion h
  rw [if_pos c3, requireC_bind] at h
  by_cases c4 : m.phase = 1
  case neg => rw [if_neg c4] at h; exact Except.noConfusion h
  rw [if_pos c4, requireC_bind] at h
  by_cases c5 : m.is_ended = false
  case neg => rw [if_neg c5] at h; exact Except.noConfusion h
  rw [if_pos c5, requireC_bind] at h
  by_cases c6 : m.has_minimum_players = true
  case neg => rw [if_neg c6] at h; exact Except.noConfusion h
  rw [if_pos c6, requireC_bind] at h
  by_cases c7 : uid.length ≤ 64
  case neg => rw [if_neg c7] at h; exact Except.noConfusion h
  rw [if_pos c7] at h
  simp only [] at h
  split at h
  · exact Except.noConfusion h
  · rename_i idx hfind
    cases hloop : batch_loop c (pad36 mid) mvs 0 m idx m.move_count [] with
    | error e => rw [hloop, error_bind] at h; exact Except.noConfusion h
    | ok out =>
      obtain ⟨mo, cur, mvidx, recs⟩ := out
      rw [hloop, ok_bind] at h
      simp only [] at h
      have hmono := batch_loop_nonce_mono c (pad36 mid) mvs 0 m idx m.move_count []
        (mo, cur, mvidx, recs) hloop
      cases h
      intro k
      have h2 : mo.get_last_nonce k ≥ m.get_last_nonce k := hmono k
      have e1 : ({ mo with move_count := mvidx, current_player := cur % 256 } : Match).get_last_nonce k
          = mo.get_last_nonce k := get_last_nonce_congr _ _ _ rfl
      omega

/-- Claim C1: every move submission is all-or-nothing.  A handler error
aborts the transaction, and the host persists the untouched original match
record (modelled by the persist wrappers): (1) any failing single submission
leaves the record unchanged, (2) any failing batch leaves the record
unchanged — no effect of earlier batch elements survives a later element's
failure, (3) in particular, even though the handler writes the per-player
last_nonce before running validate_move, a submission whose move-legality
validation fails persists nothing, the nonce write included. -/
theorem C1_all_or_nothing :
    (∀ (m : Match) (c : SubmitCtx) (mid uid : List Nat) (a : Nat) (p : List Nat)
        (n : Nat) (e : GameError),
        submit_move_handler m c mid uid a p n = .error e →
        submit_move_persist m c mid uid a p n = m) ∧
    (∀ (m : Match) (c : SubmitCtx) (mid uid : List Nat) (mvs : List BatchMove)
        (e : GameError),
        submit_batch_handler m c mid uid mvs = .error e →
        submit_batch_persist m c mid uid mvs = m) ∧
    (∀ (m : Match) (c : SubmitCtx) (mid uid : List Nat) (a : Nat) (p : List Nat)
        (n idx : Nat) (ev : GameError),
        m.find_player_index (pad64 uid) = some idx →
        validate_move (m.set_last_nonce idx n) idx a p = .error ev →
        submit_move_persist m c mid uid a p n = m) := by
  refine ⟨?_, ?_, ?_⟩
  · intro m c mid uid a p n e h
    unfold submit_move_persist
    rw [h]
  · intro m c mid uid mvs e h
    unfold submit_batch_persist
    rw [h]
  · intro m c mid uid a p n idx ev hfind hverr
    unfold submit_move_persist
    cases hh : submit_move_handler m c mid uid a p n with
    | error e => rfl
    | ok r =>
      obtain ⟨idx2, hfind2, hlt, hv2, hrest⟩ := submit_move_ok_inv m c mid uid a p n r hh
      rw [hfind] at hfind2
      cases hfind2
      rw [hv2] at hverr
      exact Except.noConfusion hverr

/-- Claim C1 witness: the rollback facts applied to concrete failing
submissions — an unsigned single move, a batch whose second element fails
(its first element's declare does not persist), and a declare whose
validation fails after the nonce write (the record, last_nonce included, is
unchanged). -/
theorem C1_all_or_nothing_witness :
    submit_move_persist sample_base { player_is_signer := false, player_key := 5, now := 100 }
      mid36 uid_a 2 [0] 1 = sample_base ∧
    submit_batch_persist sample_base sample_ctx mid36 uid_a
      [{ action_type := 2, payload := [0], nonce := 1 },
       { action_type := 2, payload := [0], nonce := 2 }] = sample_base ∧
    submit_move_persist sample_decl sample_ctx mid36 uid_b 2 [2] 1 = sample_decl := by
  refine ⟨?_, ?_, ?_⟩
  · exact C1_all_or_nothing.1 sample_base _ mid36 uid_a 2 [0] 1 .unauthorized rfl
  · exact C1_all_or_nothing.2.1 sample_base sample_ctx mid36 uid_a _ .invalidAction rfl
  · exact C1_all_or_nothing.2.2 sample_decl sample_ctx mid36 uid_b 2 [2] 1 1 .invalidAction
      rfl rfl

/-- Claim C2: nonce monotonicity of move submission.  With every check
before the nonce comparison passing: a nonce ≤ the player's stored
last_nonce is rejected with InvalidNonce, and a strictly greater nonce (all
later validations passing) succeeds and stores exactly that nonce for the
player.  Moreover every accepted single or batched submission leaves every
player's last_nonce ≥ its previous value, so the stored nonces never
decrease. -/
theorem C2_nonce_monotonicity :
    (∀ (m : Match) (c : SubmitCtx) (mid uid : List Nat) (a : Nat) (p : List Nat)
        (n idx : Nat),
        submit_prechecks m c mid uid a p idx →
        n ≤ m.get_last_nonce idx →
        submit_move_handler m c mid uid a p n = .error .invalidNonce) ∧
    (∀ (m : Match) (c : SubmitCtx) (mid uid : List Nat) (a : Nat) (p : List Nat)
        (n idx : Nat),
        submit_prechecks m c mid uid a p idx →
        n > m.get_last_nonce idx →
        validate_move (m.set_last_nonce idx n) idx a p = .ok () →
        (a = 4 → validate_card_hash (m.set_last_nonce idx n) idx p = .ok ()) →
        ∃ m2 mv, submit_move_handler m c mid uid a p n = .ok (m2, mv) ∧
          m2.get_last_nonce idx = n) ∧
    (∀ (m : Match) (c : SubmitCtx) (mid uid : List Nat) (a : Nat) (p : List Nat)
        (n : Nat) (m2 : Match) (mv : MoveRec),
        submit_move_handler m c mid uid a p n = .ok (m2, mv) →
        ∀ k, m2.get_last_nonce k ≥ m.get_last_nonce k) ∧
    (∀ (m : Match) (c : SubmitCtx) (mid uid : List Nat) (mvs : List BatchMove)
        (m2 : Match) (rs : List MoveRec),
        submit_batch_handler m c mid uid mvs = .ok (m2, rs) →
        ∀ k, m2.get_last_nonce k ≥ m.get_last_nonce k) := by
  refine ⟨submit_move_nonce_reject, submit_move_nonce_accept, ?_, submit_batch_ok_nonce_mono⟩
  intro m c mid uid a p n m2 mv h k
  obtain ⟨idx, hfind, hlt, hv, m3, hap, hr⟩ := submit_move_ok_inv m c mid uid a p n (m2, mv) h
  have e0 : m2 = { m3 with move_count := m3.move_count + 1 } := hr
  rw [e0]
  have e1 : ({ m3 with move_count := m3.move_count + 1 } : Match).get_last_nonce k
      = m3.get_last_nonce k := get_last_nonce_congr _ _ _ rfl
  have e2 : m3.get_last_nonce k = (m.set_last_nonce idx n).get_last_nonce k :=
    get_last_nonce_congr _ _ _ (apply_single_last_nonce _ _ _ _ _ _ hap)
  have e3 := get_last_nonce_set_ge m idx n k (by omega)
  omega

/-- Claim C2 witness: on the sample match (last_nonce 0 for player A), a
declare with nonce 0 is rejected with InvalidNonce, and the same declare
with nonce 1 is accepted and stores last_nonce 1 for A. -/
theorem C2_nonce_witness :
    submit_move_handler sample_base sample_ctx mid36 uid_a 2 [0] 0 = .error .invalidNonce ∧
    (∃ m2 mv, submit_move_handler sample_base sample_ctx mid36 uid_a 2 [0] 1 = .ok (m2, mv) ∧
      m2.get_last_nonce 0 = 1) := by
  constructor
  · exact C2_nonce_monotonicity.1 sample_base sample_ctx mid36 uid_a 2 [0] 0 0
      (by unfold submit_prechecks; decide) (Nat.zero_le _)
  · exact C2_nonce_monotonicity.2.1 sample_base sample_ctx mid36 uid_a 2 [0] 1 0
      (by unfold submit_prechecks; decide) (by decide) rfl (fun h4 => absurd h4 (by decide))

set_option maxRecDepth 4000 in
theorem nib_write_read_same : ∀ (b : Fin 256) (s : Fin 4) (o : Fin 2),
    ((((b.val &&& (255 ^^^ (15 <<< (o.val * 4)))) ||| ((s.val + 1) <<< (o.val * 4)))
        &&& (15 <<< (o.val * 4))) >>> (o.val * 4)) = s.val + 1 := by decide

set_option maxRecDepth 4000 in
theorem nib_write_read_other : ∀ (b : Fin 256) (s : Fin 4) (o o2 : Fin 2), o ≠ o2 →
    ((((b.val &&& (255 ^^^ (15 <<< (o.val * 4)))) ||| ((s.val + 1) <<< (o.val * 4)))
        &&& (15 <<< (o2.val * 4))) >>> (o2.val * 4))
      = ((b.val &&& (15 <<< (o2.val * 4))) >>> (o2.val * 4)) := by decide

set_option maxRecDepth 4000 in
theorem nib_write_lt : ∀ (b : Fin 256) (s : Fin 4) (o : Fin 2),
    ((b.val &&& (255 ^^^ (15 <<< (o.val * 4)))) ||| ((s.val + 1) <<< (o.val * 4))) < 256 := by
  decide

set_option maxRecDepth 4000 in
theorem nib_read_as_scan : ∀ (b : Fin 256) (o : Fin 2),
    ((b.val &&& (15 <<< (o.val * 4))) >>> (o.val * 4))
      = (if o.val = 0 then nib_lo b.val else nib_hi' b.val) := by decide

theorem getD_replicate_zero (k n : Nat) : (List.replicate n (0 : Nat)).getD k 0 = 0 := by
  rcases Nat.lt_or_ge k n with h | h
  · rw [List.getD_eq_getElem _ _ (by simpa using h), List.getElem_replicate]
  · rw [List.getD_eq_default _ _ (by simpa using h)]

theorem get_declared_fresh (m : Match) (h : m.declared_suits = List.replicate 5 0) (j : Nat) :
    m.get_declared_suit j = none := by
  by_cases hj : j ≥ 10
  · unfold Match.get_declared_suit
    rw [if_pos hj]
  · have h9 : j ≤ 9 := by omega
    unfold Match.get_declared_suit
    rw [if_neg hj, h]
    interval_cases j <;> rfl

theorem suits_ok_fresh (m : Match) (h : m.declared_suits = List.replicate 5 0) :
    suits_ok m := by
  constructor
  · rw [h]; rfl
  · intro k; rw [h, getD_replicate_zero]; omega

theorem set_declared_suits_eq (m : Match) (i s : Nat) (hi : i < 10) (hs : s ≤ 3) :
    (m.set_declared_suit i s).declared_suits
      = m.declared_suits.set (i / 2)
          ((m.declared_suits.getD (i / 2) 0 &&& (255 ^^^ (15 <<< (i % 2 * 4)))) |||
            ((s + 1) <<< (i % 2 * 4))) := by
  unfold Match.set_declared_suit
  rw [if_neg (show ¬ (i ≥ 10 ∨ s > 3) by omega)]

theorem get_declared_eq (m : Match) (j : Nat) (hj : j < 10) :
    m.get_declared_suit j =
      (if ((m.declared_suits.getD (j / 2) 0 &&& (15 <<< (j % 2 * 4))) >>> (j % 2 * 4)) = 0
       then none
       else some (((m.declared_suits.getD (j / 2) 0 &&& (15 <<< (j % 2 * 4))) >>> (j % 2 * 4)) - 1)) := by
  unfold Match.get_declared_suit
  rw [if_neg (show ¬ j ≥ 10 by omega)]

theorem get_set_declared_same (m : Match) (i s : Nat)
    (hi : i < 10) (hs : s ≤ 3) (hok : suits_ok m) :
    (m.set_declared_suit i s).get_declared_suit i = some s := by
  obtain ⟨hlen, hbyte⟩ := hok
  rw [get_declared_eq _ i hi, set_declared_suits_eq m i s hi hs]
  rw [getD_set_general,
    if_pos (show i / 2 = i / 2 ∧ i / 2 < m.declared_suits.length from ⟨rfl, by omega⟩)]
  have key := nib_write_read_same ⟨m.declared_suits.getD (i / 2) 0, hbyte (i / 2)⟩
    ⟨s, by omega⟩ ⟨i % 2, by omega⟩
  simp only [] at key
  rw [key, if_neg (show ¬ s + 1 = 0 by omega)]
  exact congrArg some (by omega)

theorem get_set_declared_other (m : Match) (i s j : Nat)
    (hi : i < 10) (hs : s ≤ 3) (hok : suits_ok m) (hne : j ≠ i) :
    (m.set_declared_suit i s).get_declared_suit j = m.get_declared_suit j := by
  obtain ⟨hlen, hbyte⟩ := hok
  by_cases hj : j ≥ 10
  · unfold Match.get_declared_suit
    rw [if_pos hj, if_pos hj]
  · rw [get_declared_eq _ j (by omega), get_declared_eq m j (by omega),
      set_declared_suits_eq m i s hi hs, getD_set_general]
    by_cases hb : i / 2 = j / 2 ∧ i / 2 < m.declared_suits.length
    · rw [if_pos hb]
      obtain ⟨hb1, hb2⟩ := hb
      rw [← hb1]
      have key := nib_write_read_other ⟨m.declared_suits.getD (i / 2) 0, hbyte (i / 2)⟩
        ⟨s, by omega⟩ ⟨i % 2, by omega⟩ ⟨j % 2, by omega⟩
        (Fin.ne_of_val_ne (show i % 2 ≠ j % 2 by omega))
      simp only [] at key
      rw [key, hb1]
    · rw [if_neg hb]

theorem suits_ok_set_declared (m : Match) (i s : Nat) (hs : s ≤ 3)
    (hok : suits_ok m) : suits_ok (m.set_declared_suit i s) := by
  obtain ⟨hlen, hbyte⟩ := hok
  by_cases hi : i < 10
  · rw [suits_ok, set_declared_suits_eq m i s hi hs]
    refine ⟨by simpa using hlen, ?_⟩
    intro k
    rw [getD_set_general]
    by_cases hc : i / 2 = k ∧ i / 2 < m.declared_suits.length
    · rw [if_pos hc]
      exact nib_write_lt ⟨m.declared_suits.getD (i / 2) 0, hbyte (i / 2)⟩
        ⟨s, by omega⟩ ⟨i % 2, by omega⟩
    · rw [if_neg hc]
      exact hbyte k
  · unfold Match.set_declared_suit
    rw [if_pos (Or.inl (by omega))]
    exact ⟨hlen, hbyte⟩

theorem locked_of_get_declared (m : Match) (j s : Nat)
    (hok : suits_ok m) (h : m.get_declared_suit j = some s) :
    m.is_suit_locked s = true := by
  obtain ⟨hlen, hbyte⟩ := hok
  by_cases hj : j ≥ 10
  · unfold Match.get_declared_suit at h
    rw [if_pos hj] at h
    exact Option.noConfusion h
  · rw [get_declared_eq m j (by omega)] at h
    by_cases hz :
        ((m.declared_suits.getD (j / 2) 0 &&& (15 <<< (j % 2 * 4))) >>> (j % 2 * 4)) = 0
    · rw [if_pos hz] at h; exact Option.noConfusion h
    · rw [if_neg hz] at h
      have hs : ((m.declared_suits.getD (j / 2) 0 &&& (15 <<< (j % 2 * 4))) >>> (j % 2 * 4)) - 1
          = s := by
        injection h
      have hv : ((m.declared_suits.getD (j / 2) 0 &&& (15 <<< (j % 2 * 4))) >>> (j % 2 * 4))
          = s + 1 := by
        generalize hX : ((m.declared_suits.getD (j / 2) 0 &&& (15 <<< (j % 2 * 4)))
          >>> (j % 2 * 4)) = X at hz hs
        omega
      unfold Match.is_suit_locked
      rw [List.any_eq_true]
      refine ⟨m.declared_suits.getD (j / 2) 0, ?_, ?_⟩
      · rw [List.getD_eq_getElem _ _ (by omega : j / 2 < m.declared_suits.length)]
        exact List.getElem_mem _
      · have key := nib_read_as_scan ⟨m.declared_suits.getD (j / 2) 0, hbyte (j / 2)⟩
          ⟨j % 2, by omega⟩
        simp only [] at key
        rw [key] at hv
        by_cases ho : j % 2 = 0
        · rw [if_pos ho] at hv
          rw [List.getD_eq_getElem?_getD] at hv
          simp only [List.getD_eq_getElem?_getD, Bool.or_eq_true, beq_iff_eq]
          exact Or.inl hv
        · rw [if_neg ho] at hv
          rw [List.getD_eq_getElem?_getD] at hv
          simp only [List.getD_eq_getElem?_getD, Bool.or_eq_true, beq_iff_eq]
          exact Or.inr hv

theorem apply_declare_inv (m m2 : Match) (i : Nat) (p : List Nat) (t : Int)
    (hlen : p.length ≥ 1) (h : apply_action_single m i 2 p t = .ok m2) :
    m2 = m.set_declared_suit i (p.getD 0 0) := by
  unfold apply_action_single at h
  rw [if_pos hlen] at h
  simp only [requireC_bind, pure_bind] at h
  split_ifs at h
  · cases h; rfl
  all_goals exact Except.noConfusion h

theorem declare_step_preserves (m m2 : Match) (i : Nat) (p : List Nat)
    (h : declare_step m i p = some m2)
    (hok : suits_ok m ∧ SuitExclusive m) : suits_ok m2 ∧ SuitExclusive m2 := by
  unfold declare_step at h
  cases hv : validate_move m i 2 p with
  | error e => rw [hv] at h; exact Option.noConfusion h
  | ok u =>
    cases u
    rw [hv] at h
    cases ha : apply_action_single m i 2 p 0 with
    | error e => rw [ha] at h; exact Option.noConfusion h
    | ok mm =>
      rw [ha] at h
      simp only [] at h
      cases h
      have hd := validate_declare_intent_ok_inv m i p (validate_move_2_inv m i p hv)
      obtain ⟨hph, hp1, hsuit, hnod, hnlk⟩ := hd
      have he := apply_declare_inv m m2 i p 0 hp1 ha
      subst he
      by_cases hi : i < 10
      · refine ⟨suits_ok_set_declared m i _ (by omega) hok.1, ?_⟩
        intro j k s2 hjk hgj hgk
        by_cases hj : j = i
        · subst hj
          rw [get_set_declared_same m j _ hi (by omega) hok.1] at hgj
          have hs2 : s2 = p.getD 0 0 := by injection hgj; omega
          subst hs2
          rw [get_set_declared_other m j _ k hi (by omega) hok.1 (by omega)] at hgk
          rw [locked_of_get_declared m k _ hok.1 hgk] at hnlk
          exact Bool.noConfusion hnlk
        · rw [get_set_declared_other m i _ j hi (by omega) hok.1 hj] at hgj
          by_cases hk : k = i
          · subst hk
            rw [get_set_declared_same m k _ hi (by omega) hok.1] at hgk
            have hs2 : s2 = p.getD 0 0 := by injection hgk; omega
            subst hs2
            rw [locked_of_get_declared m j _ hok.1 hgj] at hnlk
            exact Bool.noConfusion hnlk
          · rw [get_set_declared_other m i _ k hi (by omega) hok.1 hk] at hgk
            exact hok.2 j k s2 hjk hgj hgk
      · unfold Match.set_declared_suit
        rw [if_pos (Or.inl (by omega))]
        exact hok

theorem run_declares_preserves :
    ∀ (l : List (Nat × List Nat)) (m m2 : Match),
      run_declares m l = some m2 → suits_ok m ∧ SuitExclusive m →
      suits_ok m2 ∧ SuitExclusive m2 := by
  intro l
  induction l with
  | nil =>
    intro m m2 h hok
    unfold run_declares at h
    cases h
    exact hok
  | cons ip rest ih =>
    intro m m2 h hok
    obtain ⟨i, p⟩ := ip
    unfold run_declares at h
    cases hstep : declare_step m i p with
    | none => rw [hstep] at h; exact Option.noConfusion h
    | some mm =>
      rw [hstep] at h
      exact ih mm m2 h (declare_step_preserves m mm i p hstep hok)

theorem declare_rejected_already (m : Match) (i : Nat) (p : List Nat)
    (h : m.has_declared_suit i = true) :
    ∃ e, validate_move m i 2 p = .error e := by
  unfold validate_move
  rw [requireC_bind]
  by_cases hmax : i < m.get_max_players
  case neg => exact ⟨.playerNotInMatch, by rw [if_neg hmax]⟩
  rw [if_pos hmax]
  simp only []
  unfold validate_declare_intent
  simp only [requireC_bind, pure_bind]
  by_cases c1 : m.phase = 1
  case neg => exact ⟨.invalidPhase, by rw [if_neg c1]⟩
  rw [if_pos c1]
  by_cases c2 : p.length ≥ 1
  case neg => exact ⟨.invalidPayload, by rw [if_neg c2]⟩
  rw [if_pos c2]
  by_cases c3 : p.getD 0 0 < 4
  case neg => exact ⟨.invalidPayload, by rw [if_neg c3]⟩
  rw [if_pos c3]
  refine ⟨.invalidAction, ?_⟩
  rw [if_neg (show ¬ m.has_declared_suit i = false by simp [h])]

theorem declare_rejected_locked (m : Match) (i : Nat) (p : List Nat)
    (h : m.is_suit_locked (p.getD 0 0) = true) :
    ∃ e, validate_move m i 2 p = .error e := by
  unfold validate_move
  rw [requireC_bind]
  by_cases hmax : i < m.get_max_players
  case neg => exact ⟨.playerNotInMatch, by rw [if_neg hmax]⟩
  rw [if_pos hmax]
  simp only []
  unfold validate_declare_intent
  simp only [requireC_bind, pure_bind]
  by_cases c1 : m.phase = 1
  case neg => exact ⟨.invalidPhase, by rw [if_neg c1]⟩
  rw [if_pos c1]
  by_cases c2 : p.length ≥ 1
  case neg => exact ⟨.invalidPayload, by rw [if_neg c2]⟩
  rw [if_pos c2]
  by_cases c3 : p.getD 0 0 < 4
  case neg => exact ⟨.invalidPayload, by rw [if_neg c3]⟩
  rw [if_pos c3]
  by_cases c4 : m.has_declared_suit i = false
  case neg => exact ⟨.invalidAction, by rw [if_neg c4]⟩
  rw [if_pos c4]
  refine ⟨.invalidAction, ?_⟩
  unfold requireC
  rw [if_neg (show ¬ m.is_suit_locked (p.getD 0 0) = false by
    rw [List.getD_eq_getElem?_getD] at h; simp [h])]

/-- Claim C3: suit-declaration exclusivity.  (1) After any sequence of
accepted declare_intent moves starting from a match with no declared suits
(all packed suit bytes zero, as create_match initializes them), no two
distinct players hold the same declared suit.  (2) A declare_intent by a
player who has already declared is rejected by validate_move, and (3) so is
a declare_intent whose payload names a suit already locked by any player. -/
theorem C3_suit_exclusivity :
    (∀ (m0 : Match) (moves : List (Nat × List Nat)) (m : Match),
        m0.declared_suits = List.replicate 5 0 →
        run_declares m0 moves = some m → SuitExclusive m) ∧
    (∀ (m : Match) (i : Nat) (p : List Nat),
        m.has_declared_suit i = true → ∃ e, validate_move m i 2 p = .error e) ∧
    (∀ (m : Match) (i : Nat) (p : List Nat),
        m.is_suit_locked (p.getD 0 0) = true → ∃ e, validate_move m i 2 p = .error e) := by
  refine ⟨?_, declare_rejected_already, declare_rejected_locked⟩
  intro m0 moves m h0 hrun
  have hfresh : suits_ok m0 ∧ SuitExclusive m0 := by
    refine ⟨suits_ok_fresh m0 h0, ?_⟩
    intro i j s hij hgi
    rw [get_declared_fresh m0 h0 i] at hgi
    exact Option.noConfusion hgi
  exact (run_declares_preserves moves m0 m hrun hfresh).2

/-- Claim C3 witness: running two accepted declares (player 0 takes suit 0,
player 1 takes suit 1) from the fresh sample match yields an exclusive
assignment, and on the sample match where player 1 holds suit 2, a repeat
declare by player 1 and a declare of the locked suit 2 by player 0 are both
rejected. -/
theorem C3_suit_exclusivity_witness :
    SuitExclusive ((run_declares sample_base [(0, [0]), (1, [1])]).getD sample_base) ∧
    (∃ e, validate_move sample_decl 1 2 [0] = .error e) ∧
    (∃ e, validate_move sample_decl 0 2 [2] = .error e) := by
  refine ⟨?_, ?_, ?_⟩
  · exact C3_suit_exclusivity.1 sample_base [(0, [0]), (1, [1])] _ rfl rfl
  · exact C3_suit_exclusivity.2.1 sample_decl 1 [0] rfl
  · exact C3_suit_exclusivity.2.2 sample_decl 0 [2] rfl

theorem uid_slot_matches_iff (stored uid : List Nat) :
    uid_slot_matches stored uid = true ↔
      (uid <+: stored ∧ ∀ b ∈ stored.drop uid.length, b = 0) := by
  unfold uid_slot_matches
  simp only [Bool.or_eq_true, Bool.and_eq_true, List.isPrefixOf_iff_prefix,
    List.all_eq_true, beq_iff_eq]
  constructor
  · intro h
    rcases h with ⟨h1, h2⟩ | heq
    · exact ⟨h1, h2⟩
    · subst heq
      refine ⟨List.prefix_refl _, ?_⟩
      intro b hb
      rw [List.drop_length] at hb
      exact absurd hb (List.not_mem_nil b)
  · intro h
    exact Or.inl h

theorem slot_zero_iff (stored : List Nat) (hlen : stored.length = 64) :
    uid_slot_matches stored empty_uid64 = true ↔ stored = empty_uid64 := by
  rw [uid_slot_matches_iff]
  constructor
  · intro ⟨h1, _⟩
    exact (List.IsPrefix.eq_of_length h1 (by simp [empty_uid64, hlen])).symm
  · intro h
    subst h
    refine ⟨List.prefix_refl _, ?_⟩
    intro b hb
    rw [show (empty_uid64.length) = 64 from rfl] at hb
    rw [show (empty_uid64.drop 64) = [] from rfl] at hb
    exact absurd hb (List.not_mem_nil b)

theorem find_go_first (uid : List Nat) :
    ∀ (slots : List (List Nat)) (t i : Nat), t < slots.length →
      (∀ k, k < t → uid_slot_matches (slots.getD k []) uid = false) →
      uid_slot_matches (slots.getD t []) uid = true →
      find_player_index_go slots uid i = some (i + t) := by
  intro slots
  induction slots with
  | nil => intro t i ht; simp at ht
  | cons s rest ih =>
    intro t i ht hnone hmatch
    unfold find_player_index_go
    cases t with
    | zero =>
      rw [List.getD_cons_zero] at hmatch
      rw [if_pos hmatch]
      simp
    | succ k =>
      have h0 : uid_slot_matches s uid = false := by
        have := hnone 0 (Nat.succ_pos k)
        rwa [List.getD_cons_zero] at this
      rw [if_neg (by simp [h0])]
      have hrec := ih k (i + 1) (by simpa using ht)
        (fun k2 hk2 => by
          have := hnone (k2 + 1) (by omega)
          rwa [List.getD_cons_succ] at this)
        (by rw [List.getD_cons_succ] at hmatch; exact hmatch)
      rw [hrec]
      congr 1
      omega

theorem find_go_sound (uid : List Nat) :
    ∀ (slots : List (List Nat)) (i j : Nat),
      find_player_index_go slots uid i = some j →
      ∃ t, j = i + t ∧ t < slots.length ∧
        uid_slot_matches (slots.getD t []) uid = true ∧
        ∀ k, k < t → uid_slot_matches (slots.getD k []) uid = false := by
  intro slots
  induction slots with
  | nil => intro i j h; exact Option.noConfusion h
  | cons s rest ih =>
    intro i j h
    unfold find_player_index_go at h
    by_cases hm : uid_slot_matches s uid = true
    · rw [if_pos hm] at h
      cases h
      exact ⟨0, by omega, by simp, by rwa [List.getD_cons_zero], fun k hk => by omega⟩
    · rw [if_neg hm] at h
      obtain ⟨t, h1, h2, h3, h4⟩ := ih (i + 1) j h
      refine ⟨t + 1, by omega, by simpa using h2, by rwa [List.getD_cons_succ], ?_⟩
      intro k hk
      cases k with
      | zero =>
        rw [List.getD_cons_zero]
        exact Bool.of_not_eq_true hm
      | succ k2 =>
        rw [List.getD_cons_succ]
        exact h4 k2 (by omega)

/-- Claim C10: player-identity lookup matches by null-padded comparison over
all ten fixed slots.  (1) A slot matches a candidate id exactly when the id
is a leading segment of the slot and all remaining slot bytes are zero;
(2) find_player_index returns the first matching slot among all slots,
joined or not; (3) on a match whose joined slots (below player_count) are
non-zero and whose slot player_count is still all-zero, the empty user id
(null-padded to 64 zero bytes, which is what the handlers build from it) is
reported present, resolving to slot player_count — an unjoined slot, outside
the joined range; and (4) a join with the empty user id on such a match is
rejected by the duplicate-player check (GameError::PlayerNotInMatch). -/
theorem C10_null_padded_lookup :
    (∀ (stored uid : List Nat),
        uid_slot_matches stored uid = true ↔
          (uid <+: stored ∧ ∀ b ∈ stored.drop uid.length, b = 0)) ∧
    (∀ (m : Match) (uid : List Nat) (j : Nat),
        m.find_player_index uid = some j →
        j < m.player_ids.length ∧
        uid_slot_matches (m.player_ids.getD j []) uid = true ∧
        ∀ k, k < j → uid_slot_matches (m.player_ids.getD k []) uid = false) ∧
    (∀ m : Match,
        (∀ s ∈ m.player_ids, s.length = 64) →
        m.player_count < m.player_ids.length →
        (∀ j, j < m.player_count → m.player_ids.getD j [] ≠ empty_uid64) →
        m.player_ids.getD m.player_count [] = empty_uid64 →
        pad64 [] = empty_uid64 ∧
        m.find_player_index empty_uid64 = some m.player_count ∧
        m.has_player_id empty_uid64 = true) ∧
    (∀ (m : Match) (mid : List Nat),
        (∀ s ∈ m.player_ids, s.length = 64) →
        m.player_count < m.player_ids.length →
        (∀ j, j < m.player_count → m.player_ids.getD j [] ≠ empty_uid64) →
        m.player_ids.getD m.player_count [] = empty_uid64 →
        mid.length = 36 → mid = m.match_id.take 36 →
        m.can_join = true → m.phase = 0 →
        join_match_handler m true mid [] = .error .playerNotInMatch) := by
  have slot_len : ∀ (m : Match), (∀ s ∈ m.player_ids, s.length = 64) →
      ∀ j, j < m.player_ids.length → (m.player_ids.getD j []).length = 64 := by
    intro m hlen j hj
    apply hlen
    rw [List.getD_eq_getElem _ _ hj]
    exact List.getElem_mem _
  have part3 : ∀ m : Match,
      (∀ s ∈ m.player_ids, s.length = 64) →
      m.player_count < m.player_ids.length →
      (∀ j, j < m.player_count → m.player_ids.getD j [] ≠ empty_uid64) →
      m.player_ids.getD m.player_count [] = empty_uid64 →
      pad64 [] = empty_uid64 ∧
      m.find_player_index empty_uid64 = some m.player_count ∧
      m.has_player_id empty_uid64 = true := by
    intro m hlen hpc hocc hzero
    have hfind : m.find_player_index empty_uid64 = some m.player_count := by
      unfold Match.find_player_index
      have := find_go_first empty_uid64 m.player_ids m.player_count 0 hpc
        (fun k hk => by
          have hk2 : k < m.player_ids.length := by omega
          have hiff := slot_zero_iff (m.player_ids.getD k []) (slot_len m hlen k hk2)
          rcases hb : uid_slot_matches (m.player_ids.getD k []) empty_uid64 with _ | _
          · rfl
          · exact absurd (hiff.mp hb) (hocc k hk))
        (by
          rw [(slot_zero_iff (m.player_ids.getD m.player_count [])
            (slot_len m hlen m.player_count hpc))]
          exact hzero)
      simpa using this
    refine ⟨rfl, hfind, ?_⟩
    unfold Match.has_player_id
    rw [hfind]
    rfl
  refine ⟨uid_slot_matches_iff, ?_, part3, ?_⟩
  · intro m uid j h
    obtain ⟨t, h1, h2, h3, h4⟩ := find_go_sound uid m.player_ids 0 j h
    subst h1
    simp only [Nat.zero_add]
    exact ⟨h2, h3, h4⟩
  · intro m mid hlen hpc hocc hzero hl36 hmid hcj hph
    obtain ⟨hpad, hfind, hhas⟩ := part3 m hlen hpc hocc hzero
    unfold join_match_handler
    rw [requireC_bind, if_pos ⟨hl36, hmid⟩, requireC_bind, if_pos rfl, requireC_bind,
      if_pos hcj, requireC_bind, if_pos hph, requireC_bind,
      if_pos (show (List.length ([] : List Nat)) ≤ 64 by simp)]
    simp only []
    rw [requireC_bind, if_neg (show ¬ m.has_player_id (pad64 []) = false by
      rw [hpad, hhas]; simp)]

/-- Claim C10 witness: on the Dealing-phase sample match (players A and B in
slots 0 and 1, slots 2..9 all-zero), the empty identity null-pads to the
all-zero slot, find_player_index resolves it to slot 2 = player_count (an
unjoined slot), has_player_id reports it present, and a join with the empty
identity is rejected as a duplicate. -/
theorem C10_null_padded_lookup_witness :
    (pad64 [] = empty_uid64 ∧
      sample_deal.find_player_index empty_uid64 = some sample_deal.player_count ∧
      sample_deal.has_player_id empty_uid64 = true) ∧
    join_match_handler sample_deal true mid36 [] = .error .playerNotInMatch := by
  constructor
  · exact C10_null_padded_lookup.2.2.1 sample_deal (by decide) (by decide)
      (by decide) (by decide)
  · exact C10_null_padded_lookup.2.2.2 sample_deal mid36 (by decide) (by decide)
      (by decide) (by decide) rfl rfl rfl rfl

theorem shift_left_go_length : ∀ (fuel : Nat) (es : List LeaderboardEntry) (i stop : Nat),
    (shift_left_go fuel es i stop).length = es.length := by
  intro fuel
  induction fuel with
  | zero => intro es i stop; rfl
  | succ f ih =>
    intro es i stop
    unfold shift_left_go
    by_cases hc : i < stop
    · rw [if_pos hc]
      rw [ih]
      split <;> simp
    · rw [if_neg hc]

theorem shift_right_go_length : ∀ (fuel : Nat) (es : List LeaderboardEntry) (p i : Nat),
    (shift_right_go fuel es p i).length = es.length := by
  intro fuel
  induction fuel with
  | zero => intro es p i; rfl
  | succ f ih =>
    intro es p i
    unfold shift_right_go
    by_cases hc : p < i
    · rw [if_pos hc, ih]
      split <;> simp
    · rw [if_neg hc]
      split <;> simp

theorem shift_left_go_spec : ∀ (fuel i stop : Nat) (es : List LeaderboardEntry),
    es.length = 100 → stop ≤ 99 → stop - i ≤ fuel →
    (∀ j, j < i ∨ stop ≤ j →
        (shift_left_go fuel es i stop).getD j lb_default = es.getD j lb_default) ∧
    (∀ j, i ≤ j → j < stop →
        (shift_left_go fuel es i stop).getD j lb_default = es.getD (j + 1) lb_default) := by
  intro fuel
  induction fuel with
  | zero =>
    intro i stop es hlen hstop hfuel
    constructor
    · intro j hj; rfl
    · intro j hj1 hj2; omega
  | succ f ih =>
    intro i stop es hlen hstop hfuel
    unfold shift_left_go
    by_cases hc : i < stop
    · rw [if_pos hc, if_pos (show i + 1 < 100 by omega)]
      have hlen2 : (es.set i (es.getD (i + 1) lb_default)).length = 100 := by simp [hlen]
      have hrec := ih (i + 1) stop (es.set i (es.getD (i + 1) lb_default)) hlen2 hstop
        (by omega)
      have hset : ∀ j, (es.set i (es.getD (i + 1) lb_default)).getD j lb_default
          = if i = j ∧ i < es.length then es.getD (i + 1) lb_default else es.getD j lb_default :=
        fun j => getD_set_general es i j _ lb_default
      constructor
      · intro j hj
        rw [hrec.1 j (by omega), hset j, if_neg (by omega)]
      · intro j hj1 hj2
        by_cases hji : j = i
        · subst hji
          rw [hrec.1 j (by omega), hset j, if_pos ⟨rfl, by omega⟩]
        · rw [hrec.2 j (by omega) hj2, hset (j + 1), if_neg (by omega)]
    · rw [if_neg hc]
      constructor
      · intro j hj; rfl
      · intro j hj1 hj2; omega

theorem shift_right_go_spec : ∀ (fuel : Nat) (p i : Nat) (es : List LeaderboardEntry),
    es.length = 100 → p ≤ i → i ≤ 99 → i + 1 - p ≤ fuel →
    (∀ j, j ≤ p ∨ i + 1 < j →
        (shift_right_go fuel es p i).getD j lb_default = es.getD j lb_default) ∧
    (∀ j, p < j → j ≤ i + 1 → j ≤ 99 →
        (shift_right_go fuel es p i).getD j lb_default = es.getD (j - 1) lb_default) := by
  intro fuel
  induction fuel with
  | zero => intro p i es hlen hpi hi hfuel; omega
  | succ f ih =>
    intro p i es hlen hpi hi hfuel
    unfold shift_right_go
    have hes2 : ∀ j, (if i < 99 then es.set (i + 1) (es.getD i lb_default) else es).getD j lb_default
        = if j = i + 1 ∧ j ≤ 99 then es.getD i lb_default else es.getD j lb_default := by
      intro j
      by_cases hi99 : i < 99
      · rw [if_pos hi99, getD_set_general]
        by_cases hc : i + 1 = j ∧ i + 1 < es.length
        · rw [if_pos hc, if_pos (by omega)]
        · rw [if_neg hc, if_neg (by omega)]
      · rw [if_neg hi99, if_neg (by omega)]
    have hlen2 : (if i < 99 then es.set (i + 1) (es.getD i lb_default) else es).length = 100 := by
      split <;> simp [hlen]
    by_cases hc : p < i
    · rw [if_pos hc]
      have hrec := ih p (i - 1) _ hlen2 (by omega) (by omega) (by omega)
      constructor
      · intro j hj
        rw [hrec.1 j (by omega), hes2 j, if_neg (by omega)]
      · intro j hj1 hj2 hj3
        by_cases hji : j = i + 1
        · rw [hrec.1 j (by omega), hes2 j, if_pos ⟨hji, hj3⟩]
          congr 1
          omega
        · rw [hrec.2 j (by omega) (by omega) (by omega), hes2 (j - 1), if_neg (by omega)]
    · rw [if_neg hc]
      constructor
      · intro j hj
        rw [hes2 j, if_neg (by omega)]
      · intro j hj1 hj2 hj3
        have hj4 : j = i + 1 := by omega
        rw [hes2 j, if_pos ⟨hj4, hj3⟩]
        congr 1
        omega

theorem find_old_go_spec (es : List LeaderboardEntry) (count : Nat) (uid : List Nat) :
    ∀ (fuel k : Nat), count + 1 - k ≤ fuel →
    (∀ idx, find_old_go es count uid fuel k = some idx →
        k ≤ idx ∧ idx < count ∧ (es.getD idx lb_default).user_id = uid ∧
        ∀ t, k ≤ t → t < idx → (es.getD t lb_default).user_id ≠ uid) ∧
    (find_old_go es count uid fuel k = none →
        ∀ t, k ≤ t → t < count → (es.getD t lb_default).user_id ≠ uid) := by
  intro fuel
  induction fuel with
  | zero =>
    intro k hfuel
    constructor
    · intro idx h; exact Option.noConfusion h
    · intro h t ht1 ht2; omega
  | succ f ih =>
    intro k hfuel
    unfold find_old_go
    by_cases hk : count ≤ k
    · rw [if_pos hk]
      constructor
      · intro idx h; exact Option.noConfusion h
      · intro h t ht1 ht2; omega
    · rw [if_neg hk]
      by_cases hm : (es.getD k lb_default).user_id = uid
      · rw [if_pos hm]
        constructor
        · intro idx h
          cases h
          exact ⟨Nat.le_refl k, by omega, hm, fun t ht1 ht2 => by omega⟩
        · intro h; exact Option.noConfusion h
      · rw [if_neg hm]
        have hrec := ih (k + 1) (by omega)
        constructor
        · intro idx h
          obtain ⟨h1, h2, h3, h4⟩ := hrec.1 idx h
          refine ⟨by omega, h2, h3, ?_⟩
          intro t ht1 ht2
          by_cases htk : t = k
          · subst htk; exact hm
          · exact h4 t (by omega) ht2
        · intro h t ht1 ht2
          by_cases htk : t = k
          · subst htk; exact hm
          · exact hrec.2 h t (by omega) ht2

theorem fip_go_bounds (es : List LeaderboardEntry) (s : Nat) :
    ∀ (fuel left right : Nat), left ≤ right → right - left ≤ fuel →
      left ≤ fip_go es s fuel left right ∧ fip_go es s fuel left right ≤ right := by
  intro fuel
  induction fuel with
  | zero =>
    intro left right h1 h2
    unfold fip_go
    omega
  | succ f ih =>
    intro left right h1 h2
    unfold fip_go
    by_cases hc : left < right
    · rw [if_pos hc]
      have hmid1 : left ≤ (left + right) / 2 := by omega
      have hmid2 : (left + right) / 2 < right := by omega
      by_cases hs : (es.getD ((left + right) / 2) lb_default).score > s
      · rw [if_pos hs]
        have := ih ((left + right) / 2 + 1) right (by omega) (by omega)
        omega
      · rw [if_neg hs]
        have := ih left ((left + right) / 2) (by omega) (by omega)
        omega
    · rw [if_neg hc]
      omega

theorem fip_go_lower (es : List LeaderboardEntry) (s count : Nat)
    (hsort : ∀ a b, a < b → b < count →
      (es.getD a lb_default).score ≥ (es.getD b lb_default).score) :
    ∀ (fuel left right : Nat), right ≤ count → left ≤ right → right - left ≤ fuel →
      ∀ j, left ≤ j → j < fip_go es s fuel left right →
        (es.getD j lb_default).score > s := by
  intro fuel
  induction fuel with
  | zero =>
    intro left right hrc h1 h2 j hj1 hj2
    unfold fip_go at hj2
    omega
  | succ f ih =>
    intro left right hrc h1 h2 j hj1 hj2
    unfold fip_go at hj2
    by_cases hc : left < right
    · rw [if_pos hc] at hj2
      have hmid1 : left ≤ (left + right) / 2 := by omega
      have hmid2 : (left + right) / 2 < right := by omega
      by_cases hs : (es.getD ((left + right) / 2) lb_default).score > s
      · rw [if_pos hs] at hj2
        by_cases hjm : j ≤ (left + right) / 2
        · by_cases hjeq : j = (left + right) / 2
          · subst hjeq; exact hs
          · have := hsort j ((left + right) / 2) (by omega) (by omega)
            omega
        · exact ih ((left + right) / 2 + 1) right hrc (by omega) (by omega) j (by omega) hj2
      · rw [if_neg hs] at hj2
        exact ih left ((left + right) / 2) (by omega) (by omega) (by omega) j hj1 hj2
    · rw [if_neg hc] at hj2
      omega

theorem fip_go_upper (es : List LeaderboardEntry) (s count : Nat)
    (hsort : ∀ a b, a < b → b < count →
      (es.getD a lb_default).score ≥ (es.getD b lb_default).score) :
    ∀ (fuel left right : Nat), right ≤ count → left ≤ right → right - left ≤ fuel →
      fip_go es s fuel left right < right →
      (es.getD (fip_go es s fuel left right) lb_default).score ≤ s := by
  intro fuel
  induction fuel with
  | zero =>
    intro left right hrc h1 h2 hlt
    unfold fip_go at hlt ⊢
    omega
  | succ f ih =>
    intro left right hrc h1 h2 hlt
    unfold fip_go at hlt ⊢
    by_cases hc : left < right
    · rw [if_pos hc] at hlt ⊢
      have hmid1 : left ≤ (left + right) / 2 := by omega
      have hmid2 : (left + right) / 2 < right := by omega
      by_cases hs : (es.getD ((left + right) / 2) lb_default).score > s
      · rw [if_pos hs] at hlt ⊢
        exact ih ((left + right) / 2 + 1) right hrc (by omega) (by omega) hlt
      · rw [if_neg hs] at hlt ⊢
        have hb := fip_go_bounds es s f left ((left + right) / 2) (by omega) (by omega)
        by_cases heq : fip_go es s f left ((left + right) / 2) = (left + right) / 2
        · rw [heq]; omega
        · exact ih left ((left + right) / 2) (by omega) (by omega) (by omega) (by omega)
    · rw [if_neg hc] at hlt
      omega

theorem insert_entry_eq (lb : GameLeaderboard) (e : LeaderboardEntry) :
    insert_entry lb e =
      if ¬ (lb.entry_count < 100 ∨ (lb.entry_count > 0 ∧
          e.score > (lb.entries.getD (lb.entry_count - 1) lb_default).score)) then
        (lb, false)
      else
        (insert_stage2 lb
          (match find_old_index lb.entries lb.entry_count e.user_id with
            | some idx => (shift_left_go lb.entry_count lb.entries idx (lb.entry_count - 1),
                lb.entry_count - 1)
            | none => (lb.entries, lb.entry_count)).1
          (match find_old_index lb.entries lb.entry_count e.user_id with
            | some idx => (shift_left_go lb.entry_count lb.entries idx (lb.entry_count - 1),
                lb.entry_count - 1)
            | none => (lb.entries, lb.entry_count)).2
          e, true) := rfl

theorem insert_stage2_inv (lb : GameLeaderboard) (es1 : List LeaderboardEntry) (count1 : Nat)
    (e : LeaderboardEntry)
    (hlen : es1.length = 100) (hcnt : count1 ≤ 100)
    (hsort1 : ∀ a b, a < b → b < count1 →
        (es1.getD a lb_default).score ≥ (es1.getD b lb_default).score)
    (huniq1 : ∀ a b, a < b → b < count1 →
        (es1.getD a lb_default).user_id ≠ (es1.getD b lb_default).user_id)
    (habs : ∀ t, t < count1 → (es1.getD t lb_default).user_id ≠ e.user_id)
    (hfull : count1 = 100 → e.score > (es1.getD 99 lb_default).score) :
    lb_invariant (insert_stage2 lb es1 count1 e) := by
  have hpdef : find_insertion_point { lb with entries := es1, entry_count := count1 } e.score
      = if count1 = 0 then 0 else fip_go es1 e.score count1 0 count1 := rfl
  have hpb : find_insertion_point { lb with entries := es1, entry_count := count1 } e.score
      ≤ count1 := by
    rw [hpdef]
    by_cases hc0 : count1 = 0
    · rw [if_pos hc0]; omega
    · rw [if_neg hc0]
      exact (fip_go_bounds es1 e.score count1 0 count1 (by omega) (by omega)).2
  have hplow : ∀ j,
      j < find_insertion_point { lb with entries := es1, entry_count := count1 } e.score →
      (es1.getD j lb_default).score > e.score := by
    intro j hj
    rw [hpdef] at hj
    by_cases hc0 : count1 = 0
    · rw [if_pos hc0] at hj; omega
    · rw [if_neg hc0] at hj
      exact fip_go_lower es1 e.score count1 hsort1 count1 0 count1 (by omega) (by omega)
        (by omega) j (by omega) hj
  have hpup : find_insertion_point { lb with entries := es1, entry_count := count1 } e.score
        < count1 →
      (es1.getD (find_insertion_point { lb with entries := es1, entry_count := count1 } e.score)
        lb_default).score ≤ e.score := by
    intro hlt
    rw [hpdef] at hlt ⊢
    by_cases hc0 : count1 = 0
    · rw [if_pos hc0] at hlt; omega
    · rw [if_neg hc0] at hlt ⊢
      exact fip_go_upper es1 e.score count1 hsort1 count1 0 count1 (by omega) (by omega)
        (by omega) hlt
  have hp99 : find_insertion_point { lb with entries := es1, entry_count := count1 } e.score
      ≤ 99 := by
    by_cases hc100 : count1 = 100
    · by_contra hgt
      have h99 : (es1.getD 99 lb_default).score > e.score := hplow 99 (by omega)
      have := hfull hc100
      omega
    · omega
  unfold insert_stage2
  simp only []
  generalize hp : find_insertion_point { lb with entries := es1, entry_count := count1 } e.score
      = p at hpb hplow hpup hp99 ⊢
  rw [if_pos (show p < 100 by omega)]
  show lb_invariant { lb with
    entries := (if p < count1 then shift_right_go count1 es1 p (count1 - 1) else es1).set p e,
    entry_count := if count1 < 100 then count1 + 1 else count1 }
  generalize hE : (if p < count1 then shift_right_go count1 es1 p (count1 - 1) else es1) = es2
  have hlen2 : es2.length = 100 := by
    rw [← hE]
    by_cases hpc : p < count1
    · rw [if_pos hpc, shift_right_go_length]; exact hlen
    · rw [if_neg hpc]; exact hlen
  have hspec1 : ∀ j, j ≤ p ∨ count1 < j →
      es2.getD j lb_default = es1.getD j lb_default := by
    intro j hj
    rw [← hE]
    by_cases hpc : p < count1
    · rw [if_pos hpc]
      exact (shift_right_go_spec count1 p (count1 - 1) es1 hlen (by omega) (by omega)
        (by omega)).1 j (by omega)
    · rw [if_neg hpc]
  have hspec2 : ∀ j, p < j → j ≤ count1 → j ≤ 99 →
      es2.getD j lb_default = es1.getD (j - 1) lb_default := by
    intro j hj1 hj2 hj3
    rw [← hE]
    by_cases hpc : p < count1
    · rw [if_pos hpc]
      exact (shift_right_go_spec count1 p (count1 - 1) es1 hlen (by omega) (by omega)
        (by omega)).2 j hj1 (by omega) hj3
    · rw [if_neg hpc]
      exact absurd hj1 (by omega)
  have hcle : count1 ≤ (if count1 < 100 then count1 + 1 else count1) := by
    by_cases h : count1 < 100
    · rw [if_pos h]; omega
    · rw [if_neg h]
  have hcb : (if count1 < 100 then count1 + 1 else count1) ≤ 100 := by
    by_cases h : count1 < 100
    · rw [if_pos h]; omega
    · rw [if_neg h]; exact hcnt
  have hcge : (if count1 < 100 then count1 + 1 else count1) ≤ count1 + 1 := by
    by_cases h : count1 < 100
    · rw [if_pos h]
    · rw [if_neg h]; omega
  generalize hc3 : (if count1 < 100 then count1 + 1 else count1) = c3 at hcle hcb hcge ⊢
  have hmap : ∀ j, j < c3 → (es2.set p e).getD j lb_default =
      if j < p then es1.getD j lb_default
      else if j = p then e else es1.getD (j - 1) lb_default := by
    intro j hj
    rw [getD_set_general, hlen2]
    by_cases hjp : j = p
    · rw [if_pos (show p = j ∧ p < 100 from ⟨hjp.symm, by omega⟩), if_neg (show ¬ j < p
        by omega), if_pos hjp]
    · rw [if_neg (show ¬ (p = j ∧ p < 100) from fun hc => hjp hc.1.symm)]
      by_cases hjlt : j < p
      · rw [if_pos hjlt]
        exact hspec1 j (Or.inl (by omega))
      · rw [if_neg hjlt, if_neg hjp]
        exact hspec2 j (by omega) (by omega) (by omega)
  have hup2 : ∀ j, p ≤ j → j < count1 → (es1.getD j lb_default).score ≤ e.score := by
    intro j hj1 hj2
    by_cases hjp : j = p
    · subst hjp
      exact hpup hj2
    · have h1 := hsort1 p j (by omega) hj2
      have h2 := hpup (by omega)
      omega
  refine ⟨hcb, ?_, ?_, ?_⟩
  · show (es2.set p e).length = 100
    rw [List.length_set]
    exact hlen2
  · intro i j hij hj
    have hj2 : j < c3 := hj
    have hi2 : i < c3 := by omega
    show ((es2.set p e).getD i lb_default).score ≥ ((es2.set p e).getD j lb_default).score
    rw [hmap i hi2, hmap j hj2]
    by_cases hjp : j < p
    · rw [if_pos (show i < p by omega), if_pos hjp]
      exact hsort1 i j hij (by omega)
    · by_cases hjeq : j = p
      · rw [if_neg hjp, if_pos hjeq, if_pos (show i < p by omega)]
        have := hplow i (by omega)
        omega
      · rw [if_neg hjp, if_neg hjeq]
        have hb1 : (es1.getD (j - 1) lb_default).score ≤ e.score :=
          hup2 (j - 1) (by omega) (by omega)
        by_cases hip : i < p
        · rw [if_pos hip]
          have := hplow i hip
          omega
        · by_cases hieq : i = p
          · rw [if_neg hip, if_pos hieq]
            omega
          · rw [if_neg hip, if_neg hieq]
            exact hsort1 (i - 1) (j - 1) (by omega) (by omega)
  · intro i j hij hj
    have hj2 : j < c3 := hj
    have hi2 : i < c3 := by omega
    show ((es2.set p e).getD i lb_default).user_id ≠ ((es2.set p e).getD j lb_default).user_id
    rw [hmap i hi2, hmap j hj2]
    by_cases hjp : j < p
    · rw [if_pos (show i < p by omega), if_pos hjp]
      exact huniq1 i j hij (by omega)
    · by_cases hjeq : j = p
      · rw [if_neg hjp, if_pos hjeq, if_pos (show i < p by omega)]
        exact habs i (by omega)
      · rw [if_neg hjp, if_neg hjeq]
        by_cases hip : i < p
        · rw [if_pos hip]
          exact huniq1 i (j - 1) (by omega) (by omega)
        · by_cases hieq : i = p
          · rw [if_neg hip, if_pos hieq]
            exact fun hcontra => habs (j - 1) (by omega) hcontra.symm
          · rw [if_neg hip, if_neg hieq]
            exact huniq1 (i - 1) (j - 1) (by omega) (by omega)

theorem insert_entry_preserves (lb : GameLeaderboard) (e : LeaderboardEntry)
    (hinv : lb_invariant lb) : lb_invariant (insert_entry lb e).1 := by
  obtain ⟨hcnt, hlen, hsort, huniq⟩ := hinv
  rw [insert_entry_eq]
  by_cases hq : lb.entry_count < 100 ∨ (lb.entry_count > 0 ∧
      e.score > (lb.entries.getD (lb.entry_count - 1) lb_default).score)
  · rw [if_neg (not_not_intro hq)]
    cases hold : find_old_index lb.entries lb.entry_count e.user_id with
    | none =>
      simp only []
      refine insert_stage2_inv lb _ _ e hlen hcnt hsort huniq ?_ ?_
      · intro t ht
        exact (find_old_go_spec lb.entries lb.entry_count e.user_id (lb.entry_count + 1) 0
          (by omega)).2 hold t (by omega) ht
      · intro hc100
        rcases hq with hlt | hscore
        · omega
        · have h2 := hscore.2
          have h9 : lb.entry_count - 1 = 99 := by omega
          rw [h9] at h2
          exact h2
    | some idx =>
      simp only []
      obtain ⟨-, hidx, hmatch, hfirst⟩ :=
        (find_old_go_spec lb.entries lb.entry_count e.user_id (lb.entry_count + 1) 0
          (by omega)).1 idx hold
      have hSL := shift_left_go_spec lb.entry_count idx (lb.entry_count - 1) lb.entries hlen
        (by omega) (by omega)
      have hmap1 : ∀ j, j < lb.entry_count - 1 →
          (shift_left_go lb.entry_count lb.entries idx (lb.entry_count - 1)).getD j lb_default
            = lb.entries.getD (if j < idx then j else j + 1) lb_default := by
        intro j hj
        by_cases hji : j < idx
        · rw [if_pos hji]
          exact hSL.1 j (Or.inl hji)
        · rw [if_neg hji]
          exact hSL.2 j (by omega) hj
      refine insert_stage2_inv lb _ _ e ?_ ?_ ?_ ?_ ?_ ?_
      · rw [shift_left_go_length]; exact hlen
      · omega
      · intro a b hab hb
        rw [hmap1 a (by omega), hmap1 b hb]
        split_ifs <;> exact hsort _ _ (by omega) (by omega)
      · intro a b hab hb
        rw [hmap1 a (by omega), hmap1 b hb]
        split_ifs <;> exact huniq _ _ (by omega) (by omega)
      · intro t ht
        rw [hmap1 t ht]
        by_cases hti : t < idx
        · rw [if_pos hti]
          exact hfirst t (by omega) hti
        · rw [if_neg hti]
          intro hcontra
          exact huniq idx (t + 1) (by omega) (by omega) (hmatch.trans hcontra.symm)
      · intro hcontra
        exact absurd hcontra (by omega)
  · rw [if_pos hq]
    exact ⟨hcnt, hlen, hsort, huniq⟩

theorem lb_invariant_empty (gt season : Nat) (t0 : Int) :
    lb_invariant (empty_leaderboard gt season t0) := by
  constructor
  · show (0 : Nat) ≤ 100
    omega
  constructor
  · show (List.replicate 100 lb_default).length = 100
    simp
  constructor
  · intro i j hij hj
    have h0 : j < 0 := hj
    omega
  · intro i j hij hj
    have h0 : j < 0 := hj
    omega

theorem run_inserts_inv : ∀ (ms : List LeaderboardEntry) (lb : GameLeaderboard),
    lb_invariant lb → lb_invariant (run_inserts lb ms) := by
  intro ms
  induction ms with
  | nil => intro lb h; exact h
  | cons e rest ih =>
    intro lb h
    exact ih _ (insert_entry_preserves lb e h)

/-- C4 counterexample: starting from an empty leaderboard, inserting two
entries for distinct users with the same score 50 succeeds twice and yields
entry_count = 2 with scores 50, 50 at positions 0 and 1, so the stored array
is NOT strictly descending by score (ties are kept, refuting the claim's
strictness). -/
theorem C4_ties_break_strict_descent :
    (insert_entry (empty_leaderboard 0 1 0) lb_e1).2 = true ∧
    (insert_entry (insert_entry (empty_leaderboard 0 1 0) lb_e1).1 lb_e2).2 = true ∧
    (insert_entry (insert_entry (empty_leaderboard 0 1 0) lb_e1).1 lb_e2).1.entry_count = 2 ∧
    ((insert_entry (insert_entry (empty_leaderboard 0 1 0) lb_e1).1
        lb_e2).1.entries.getD 0 lb_default).score = 50 ∧
    ((insert_entry (insert_entry (empty_leaderboard 0 1 0) lb_e1).1
        lb_e2).1.entries.getD 1 lb_default).score = 50 ∧
    ¬ lb_strictly_descending
        (insert_entry (insert_entry (empty_leaderboard 0 1 0) lb_e1).1 lb_e2).1 := by
  refine ⟨rfl, rfl, rfl, rfl, rfl, ?_⟩
  intro hstrict
  have h2 : (insert_entry (insert_entry (empty_leaderboard 0 1 0) lb_e1).1
      lb_e2).1.entry_count = 2 := rfl
  have hgt := hstrict 0 1 (by omega) (by rw [h2]; omega)
  have e0 : ((insert_entry (insert_entry (empty_leaderboard 0 1 0) lb_e1).1
      lb_e2).1.entries.getD 0 lb_default).score = 50 := rfl
  have e1 : ((insert_entry (insert_entry (empty_leaderboard 0 1 0) lb_e1).1
      lb_e2).1.entries.getD 1 lb_default).score = 50 := rfl
  rw [e0, e1] at hgt
  omega

/-- C4 (amended): after any sequence of insert_entry calls on a leaderboard
that starts empty, the stored entry array has entry_count ≤ 100, its
underlying buffer keeps length 100, scores over the first entry_count
entries are non-increasing (descending with ties possible, not strictly),
and no user identity appears twice among them. -/
theorem C4_leaderboard_invariant_amended (gt season : Nat) (t0 : Int)
    (ms : List LeaderboardEntry) :
    lb_invariant (run_inserts (empty_leaderboard gt season t0) ms) :=
  run_inserts_inv ms (empty_leaderboard gt season t0) (lb_invariant_empty gt season t0)

end OG
